import Mathlib

/-!
Shallow embedding of the order/payment state machine of the jemi backend
(services/order.py, services/payment.py and the models they manipulate).

Conventions:
* SQLAlchemy rows become Lean structures; the session/database becomes an
  explicit `DB` value threaded through each service operation.
* Python `int` columns become `Int` (stock may be driven negative by the
  code, so `stock_quantity : Int`); quantities entering through the schemas
  are natural numbers.
* `Numeric(12, 2)` money columns become `Rat`; the money identities the
  claims mention are exact identities of the very expressions the code
  computes, so exact arithmetic is faithful to them.
* A service method that can raise becomes `Except Err (DB × α)`; raising
  before commit leaves the database untouched, so an `Except.error` result
  carries no new state.
* Timestamps, logging and outbound HTTP are outside the model; gateway
  responses and webhook payloads enter as explicit structures.
-/

attribute [local semireducible] Rat.add Rat.mul Rat.sub Rat.inv Rat.ofScientific

/-- Row of the `products` table (models/product.py), fields the order and
payment services read or write. -/
structure Product where
  pid : Nat
  name : String
  price : Rat
  stock_quantity : Int
  in_stock : Bool
  is_active : Bool
  image_url : String
deriving DecidableEq

/-- Row of the `cart_items` table: a product reference plus a quantity. -/
structure CartItem where
  product_id : Nat
  quantity : Nat
deriving DecidableEq

/-- Row of the `carts` table (one per user) with its items. -/
structure Cart where
  cid : Nat
  user_id : Nat
  items : List CartItem
deriving DecidableEq

/-- Row of the `orders` table (models/order.py), fields the services touch.
`user_id` is nullable (`ondelete="SET NULL"`); statuses are stored as plain
strings, exactly as the code stores `OrderStatus.X.value`. -/
structure Order where
  oid : Nat
  user_id : Option Nat
  order_number : String
  subtotal : Rat
  delivery_fee : Rat
  total : Rat
  status : String
  payment_status : String
  payment_method : Option String
  pickup_location : Option String
  pickup_code : Option String
  customer_name : String
  customer_phone : String
  customer_email : Option String
  customer_note : Option String
deriving DecidableEq

/-- Row of the `order_items` table: snapshot of a product at order time.
`product_id` is nullable (`ondelete="SET NULL"`). -/
structure OrderItem where
  order_id : Nat
  product_id : Option Nat
  product_name : String
  product_image : Option String
  unit_price : Rat
  quantity : Nat
  total_price : Rat
deriving DecidableEq

/-- Row of the `order_timeline` table. -/
structure OrderTimeline where
  order_id : Nat
  status : String
  note : Option String
deriving DecidableEq

/-- The fields of a user row that the order and payment services read. -/
structure User where
  uid : Nat
  name : String
  nickname : Option String
  phone : String
  email : String
  profile_completed : Bool
deriving DecidableEq

/-- The database as the services see it.  `next_order_id` models the
autoincrement sequence that `db.flush()` draws order ids from. -/
structure DB where
  products : List Product
  carts : List Cart
  orders : List Order
  order_items : List OrderItem
  timeline : List OrderTimeline
  next_order_id : Nat
deriving DecidableEq

/-- The exception classes of core/exceptions.py that the two services raise.
`crash` stands for an unmodelled runtime error (attribute access on a cart
line whose product row is gone; the CASCADE foreign key makes it unreachable
in well-formed states). -/
inductive Err where
  | badRequest (msg : String)
  | notFound (resource : String) (rid : String)
  | insufficientStock (pname : String) (available : Int) (requested : Nat)
  | paymentFailed (msg : String)
  | crash
deriving DecidableEq

deriving instance DecidableEq for Except

/-- String values of the OrderStatus enum (models/order.py). -/
def OrderStatus.PENDING : String := "pending"

def OrderStatus.CONFIRMED : String := "confirmed"

def OrderStatus.PROCESSING : String := "processing"

def OrderStatus.READY_FOR_PICKUP : String := "ready_for_pickup"

def OrderStatus.COMPLETED : String := "completed"

def OrderStatus.CANCELLED : String := "cancelled"

/-- String values of the PaymentStatus enum (models/order.py). -/
def PaymentStatus.PENDING : String := "pending"

def PaymentStatus.PAID : String := "paid"

def PaymentStatus.FAILED : String := "failed"

/-- `db.query(Cart).filter(Cart.user_id == uid).first()`. -/
def findCart (db : DB) (uid : Nat) : Option Cart :=
  db.carts.find? (fun c => c.user_id == uid)

/-- Resolving a `product_id` foreign key against the products table. -/
def findProduct (db : DB) (pid : Nat) : Option Product :=
  db.products.find? (fun p => p.pid == pid)

/-- Python `int(q)`: truncation toward zero. -/
def pyInt (q : Rat) : Int :=
  if q < 0 then -((-q).floor) else q.floor

/-- `natLog2Aux fuel n` = ⌊log₂ n⌋ whenever `fuel ≥ ⌊log₂ n⌋` (structural
fuel keeps the recursion kernel-reducible). -/
def natLog2Aux : Nat → Nat → Nat
  | 0, _ => 0
  | fuel + 1, n => if n < 2 then 0 else natLog2Aux fuel (n / 2) + 1

/-- ⌊log₂ n⌋ for n ≥ 1 (0 at 0); fuel n ≥ ⌊log₂ n⌋ always suffices. -/
def natLog2 (n : Nat) : Nat := natLog2Aux n n

/-- Round a rational to the nearest integer, ties to the even neighbour —
the rounding IEEE-754 arithmetic applies to significands. -/
def roundTiesEven (x : Rat) : Int :=
  let f := x.floor
  let r := x - (f : Rat)
  if r < 1/2 then f
  else if 1/2 < r then f + 1
  else if f % 2 = 0 then f else f + 1

/-- Python `float(q)`: the IEEE-754 binary64 value nearest to `q` (round to
nearest, ties to even), as an exact rational.  For `q ≠ 0`: the exponent
`e` is chosen so the significand `|q| · 2⁻ᵉ` lies in `[2⁵², 2⁵³)`, clamped
at the subnormal quantum `2⁻¹⁰⁷⁴`; the significand is rounded ties-to-even
and scaled back.  Overflow to infinity (|q| ≥ ~2¹⁰²⁴) is not modelled: the
money columns are `Numeric(12, 2)`, bounded far below it. -/
def toFloat (q : Rat) : Rat :=
  if q = 0 then 0
  else
    let s : Rat := if q < 0 then -1 else 1
    let aq : Rat := if q < 0 then -q else q
    let a := aq.num.toNat
    let b := aq.den
    let la := natLog2 a
    let lb := natLog2 b
    let e0 : Int := if b * 2 ^ la ≤ a * 2 ^ lb then (la : Int) - lb else (la : Int) - lb - 1
    let e : Int := max (e0 - 52) (-1074)
    let m : Rat := if 0 ≤ e then aq / ((2 : Rat) ^ e.toNat) else aq * ((2 : Rat) ^ (-e).toNat)
    let r : Rat := if 0 ≤ e then (roundTiesEven m : Rat) * ((2 : Rat) ^ e.toNat)
      else (roundTiesEven m : Rat) / ((2 : Rat) ^ (-e).toNat)
    s * r

/-- `int(float(order.total) * 100)` (services/payment.py:202), float64
semantics made explicit: `float(total)` rounds the exact Decimal to the
nearest binary64, the multiplication by 100 rounds its exact product to the
nearest binary64 again, and `int` truncates toward zero.  This differs from
the exact `total × 100` on totals the binary64 grid misses: e.g. total 0.29
gives 28, not 29. -/
def expected_kobo (total : Rat) : Int :=
  pyInt (toFloat (toFloat total * 100))

/-- `product.stock_quantity -= quantity; if product.stock_quantity <= 0:
product.in_stock = False` — one deduction step on one product row. -/
def deductProduct (p : Product) (q : Nat) : Product :=
  let s : Int := p.stock_quantity - (q : Int)
  { p with stock_quantity := s, in_stock := if s ≤ 0 then false else p.in_stock }

/-- `item.product.stock_quantity += item.quantity; item.product.in_stock =
True` — one restoration step on one product row (cancel_order). -/
def restoreProduct (p : Product) (q : Nat) : Product :=
  { p with stock_quantity := p.stock_quantity + (q : Int), in_stock := true }

/-- Apply `f` to every product row with the given id (ids are unique in a
real database; the map mirrors in-place ORM mutation). -/
def updateProducts (ps : List Product) (pid : Nat) (f : Product → Product) :
    List Product :=
  ps.map (fun p => if p.pid = pid then f p else p)

/-- The stock-deduction loop of create_order over the validated
(product, quantity) pairs: `product.stock_quantity -= quantity; ...`.
The pairs were resolved at validation time; the loop mutates live rows, so
each step reads the current state of the row. -/
def deductLines (ps : List Product) (lines : List (Product × Nat)) :
    List Product :=
  lines.foldl (fun acc pq => updateProducts acc pq.1.pid (fun p => deductProduct p pq.2)) ps

/-- One iteration of the deduction loop of verify_payment /
handle_webhook: `if item.product: item.product.stock_quantity -= ...`.
An item whose product reference is gone is skipped. -/
def deductItemStep (acc : List Product) (it : OrderItem) : List Product :=
  match it.product_id with
  | none => acc
  | some pid =>
    if (acc.find? (fun p => p.pid == pid)).isSome then
      updateProducts acc pid (fun p => deductProduct p it.quantity)
    else acc

/-- The stock-deduction loop of verify_payment / handle_webhook over the
order's items. -/
def deductItems (ps : List Product) (items : List OrderItem) : List Product :=
  items.foldl deductItemStep ps

/-- One iteration of the restoration loop of cancel_order:
`if item.product: item.product.stock_quantity += item.quantity;
item.product.in_stock = True`. -/
def restoreItemStep (acc : List Product) (it : OrderItem) : List Product :=
  match it.product_id with
  | none => acc
  | some pid =>
    if (acc.find? (fun p => p.pid == pid)).isSome then
      updateProducts acc pid (fun p => restoreProduct p it.quantity)
    else acc

/-- The stock-restoration loop of cancel_order over the order's items. -/
def restoreItems (ps : List Product) (items : List OrderItem) : List Product :=
  items.foldl restoreItemStep ps

/-- `order.items` — the order item rows belonging to an order. -/
def orderItemsOf (db : DB) (oid : Nat) : List OrderItem :=
  db.order_items.filter (fun it => it.order_id == oid)

/-- Empty the item list of the cart with the given row id
(`db.query(CartItem).filter(CartItem.cart_id == cart.id).delete()`). -/
def clearCartRow (cs : List Cart) (cid : Nat) : List Cart :=
  cs.map (fun c => if c.cid = cid then { c with items := [] } else c)

/-- The cart-clearing step shared by verify_payment and handle_webhook:
look up the first cart of the given user (if any) and delete its items.
A `none` user id (order whose user row was deleted) matches no cart,
because SQL `NULL` compares unequal to every cart's non-null user_id. -/
def clearCartOf (db : DB) (uid : Option Nat) : DB :=
  match uid with
  | none => db
  | some u =>
    match findCart db u with
    | none => db
    | some c => { db with carts := clearCartRow db.carts c.cid }

/-- The validation loop shared by OrderService.create_order and
PaymentService.initialize_payment: walk the cart lines in order, resolve
each product, fail on the first inactive product or insufficient stock,
and return the resolved (product, quantity) pairs.  All validation runs
before any stock mutation, against the same database state. -/
def validateCart (db : DB) : List CartItem → Except Err (List (Product × Nat))
  | [] => Except.ok []
  | l :: rest =>
    match findProduct db l.product_id with
    | none => Except.error Err.crash
    | some p =>
      if !p.is_active then
        Except.error (Err.badRequest ("Product '" ++ p.name ++ "' is no longer available"))
      else if p.stock_quantity < (l.quantity : Int) then
        Except.error (Err.insufficientStock p.name p.stock_quantity l.quantity)
      else do
        let rest' ← validateCart db rest
        Except.ok ((p, l.quantity) :: rest')

/-- `subtotal += float(product.price) * cart_item.quantity` accumulated over
the validated pairs, in cart order. -/
def cartSubtotal (lines : List (Product × Nat)) : Rat :=
  lines.foldl (fun acc pq => acc + pq.1.price * (pq.2 : Rat)) 0

/-- The order item rows built from the validated pairs (both creation
paths build them from the same snapshot data). -/
def buildOrderItems (oid : Nat) (lines : List (Product × Nat)) : List OrderItem :=
  lines.map (fun pq =>
    { order_id := oid
      product_id := some pq.1.pid
      product_name := pq.1.name
      product_image := some pq.1.image_url
      unit_price := pq.1.price
      quantity := pq.2
      total_price := pq.1.price * (pq.2 : Rat) })

/-- OrderService.create_order (services/order.py): validate the cart,
persist the order and its items, deduct stock, append a timeline entry and
clear the cart.  `order_number` and `pickup_code` stand for the two random
generators, passed in as parameters. -/
def create_order (user : User) (payment_method : String)
    (pickup_location customer_note : Option String)
    (order_number pickup_code : String) (db : DB) : Except Err (DB × Order) :=
  match findCart db user.uid with
  | none => Except.error (Err.badRequest "Cart is empty")
  | some cart =>
    if cart.items.isEmpty then Except.error (Err.badRequest "Cart is empty")
    else do
      let lines ← validateCart db cart.items
      let subtotal := cartSubtotal lines
      let order : Order :=
        { oid := db.next_order_id
          user_id := some user.uid
          order_number := order_number
          subtotal := subtotal
          delivery_fee := 0
          total := subtotal
          status := OrderStatus.PENDING
          payment_status := PaymentStatus.PENDING
          payment_method := some payment_method
          pickup_location := pickup_location
          pickup_code := some pickup_code
          customer_name := user.name
          customer_phone := user.phone
          customer_email := some user.email
          customer_note := customer_note }
      let db' : DB :=
        { products := deductLines db.products lines
          carts := clearCartRow db.carts cart.cid
          orders := db.orders ++ [order]
          order_items := db.order_items ++ buildOrderItems order.oid lines
          timeline := db.timeline ++
            [{ order_id := order.oid, status := OrderStatus.PENDING,
               note := some "Order placed successfully" }]
          next_order_id := db.next_order_id + 1 }
      Except.ok (db', order)

/-- The database phase of PaymentService.initialize_payment
(services/payment.py): validate cart and profile, persist a PENDING order
with its items and a timeline entry, touching neither stock nor the cart.
The outbound gateway call happens after this commit and never mutates the
database, so its failure mode (PaymentFailedException) is outside the state
transition modelled here. -/
def initialize_payment (user : User) (pickup_location customer_note : Option String)
    (order_number pickup_code : String) (db : DB) : Except Err (DB × Order) :=
  match findCart db user.uid with
  | none => Except.error (Err.badRequest "Cart is empty")
  | some cart =>
    if cart.items.isEmpty then Except.error (Err.badRequest "Cart is empty")
    else if !user.profile_completed then
      Except.error (Err.badRequest "Complete your profile before checkout")
    else do
      let lines ← validateCart db cart.items
      let subtotal := cartSubtotal lines
      let order : Order :=
        { oid := db.next_order_id
          user_id := some user.uid
          order_number := order_number
          subtotal := subtotal
          delivery_fee := 0
          total := subtotal
          status := OrderStatus.PENDING
          payment_status := PaymentStatus.PENDING
          payment_method := some "paystack"
          pickup_location := pickup_location
          pickup_code := some pickup_code
          customer_name := user.nickname.getD user.name
          customer_phone := user.phone
          customer_email := some user.email
          customer_note := customer_note }
      let db' : DB :=
        { products := db.products
          carts := db.carts
          orders := db.orders ++ [order]
          order_items := db.order_items ++ buildOrderItems order.oid lines
          timeline := db.timeline ++
            [{ order_id := order.oid, status := OrderStatus.PENDING,
               note := some "Order created, awaiting payment" }]
          next_order_id := db.next_order_id + 1 }
      Except.ok (db', order)

/-- The `data` object of a successful Paystack verify response: the two
fields the service reads. -/
structure PSData where
  status : String
  amount : Int
deriving DecidableEq

/-- The success payload of /payment/verify (schemas.payment.
PaymentVerifyResponse; the schema module is not under src/, its fields are
those the service constructs).  The route formats `total` as a currency
string from the order's total; the underlying rational is recorded here. -/
structure PaymentVerifyResponse where
  order_number : String
  pickup_code : String
  pickup_location : String
  total : Rat
  status : String
deriving DecidableEq

/-- `reference.replace("JEMI-", "")`. -/
def stripRef (reference : String) : String :=
  reference.replace "JEMI-" ""

/-- The success payload verify_payment builds from an order row. -/
def mkVerifyResponse (o : Order) : PaymentVerifyResponse :=
  { order_number := o.order_number
    pickup_code := o.pickup_code.getD ""
    pickup_location := o.pickup_location.getD ""
    total := o.total
    status := "success" }

/-- The order lookup of verify_payment: order_number derived from the
reference, scoped to the calling user. -/
def verifyLookup (db : DB) (reference : String) (user : User) : Option Order :=
  db.orders.find? (fun o =>
    o.order_number == stripRef reference && o.user_id == some user.uid)

/-- The confirmation body shared by verify_payment and handle_webhook once
the order is known: mark it PAID/CONFIRMED, deduct stock for its items,
append a timeline entry, clear the cart of `cartUser`. -/
def confirmOrder (db : DB) (o : Order) (note : String) (cartUser : Option Nat) : DB :=
  let o' := { o with payment_status := PaymentStatus.PAID,
                     status := OrderStatus.CONFIRMED }
  let db1 : DB :=
    { db with orders := db.orders.map (fun x => if x.oid = o.oid then o' else x) }
  let db2 : DB := { db1 with products := deductItems db1.products (orderItemsOf db1 o.oid) }
  let db3 : DB :=
    { db2 with timeline := db2.timeline ++
        [{ order_id := o.oid, status := OrderStatus.CONFIRMED, note := some note }] }
  clearCartOf db3 cartUser

/-- PaymentService.verify_payment (services/payment.py) from the point the
gateway has answered: `ps` is the `data` object of the verify response.
The HTTP-level failures (non-200, status flag false) raise before any
database read and are not part of the state transition.  The amount gate
compares against `int(float(order.total) * 100)` — the binary64-rounded
conversion `expected_kobo`, not the exact product. -/
def verify_payment (reference : String) (user : User) (ps : PSData) (db : DB) :
    Except Err (DB × PaymentVerifyResponse) :=
  if ps.status ≠ "success" then
    Except.error (Err.paymentFailed ("Payment status: " ++ ps.status))
  else
    match verifyLookup db reference user with
    | none => Except.error (Err.notFound "Order" (stripRef reference))
    | some o =>
      if o.payment_status == PaymentStatus.PAID then
        Except.ok (db, mkVerifyResponse o)
      else
        if ps.amount ≠ expected_kobo o.total then
          Except.error (Err.paymentFailed "Payment amount mismatch")
        else
          let db' := confirmOrder db o
            ("Payment confirmed via Paystack (ref: " ++ reference ++ ")")
            (some user.uid)
          let o' := { o with payment_status := PaymentStatus.PAID,
                             status := OrderStatus.CONFIRMED }
          Except.ok (db', mkVerifyResponse o')

/-- The `data` object of a Paystack webhook event. -/
structure WebhookData where
  reference : String
  amount : Int
  status : String
deriving DecidableEq

/-- A Paystack webhook payload as handle_webhook reads it. -/
structure WebhookPayload where
  event : String
  data : WebhookData
deriving DecidableEq

/-- The order lookup of handle_webhook: by order_number only, no user
scoping (the webhook carries no user). -/
def webhookLookup (db : DB) (reference : String) : Option Order :=
  db.orders.find? (fun o => o.order_number == stripRef reference)

/-- PaymentService.handle_webhook (services/payment.py).  Never raises:
unknown events, missing orders and already-paid orders are ignored so that
the gateway always receives an acknowledgement. -/
def handle_webhook (payload : WebhookPayload) (db : DB) : DB :=
  if payload.event == "charge.success" then
    let reference := payload.data.reference
    match webhookLookup db reference with
    | none => db
    | some o =>
      if o.payment_status == PaymentStatus.PAID then db
      else
        confirmOrder db o
          ("Payment confirmed via webhook (ref: " ++ reference ++ ")")
          o.user_id
  else db

/-- The order lookup of cancel_order and get_order: by id, scoped to the
calling user. -/
def ownedOrderLookup (db : DB) (user : User) (order_id : Nat) : Option Order :=
  db.orders.find? (fun o => o.oid == order_id && o.user_id == some user.uid)

/-- OrderService.cancel_order (services/order.py): only PENDING or
CONFIRMED orders may be cancelled; on success restore stock for every item
whose product still exists, mark the order CANCELLED and append a timeline
entry. -/
def cancel_order (user : User) (order_id : Nat) (db : DB) : Except Err (DB × Order) :=
  match ownedOrderLookup db user order_id with
  | none => Except.error (Err.notFound "Order" (toString order_id))
  | some o =>
    if !(o.status == OrderStatus.PENDING || o.status == OrderStatus.CONFIRMED) then
      Except.error (Err.badRequest ("Cannot cancel order with status '" ++ o.status ++ "'"))
    else
      let o' := { o with status := OrderStatus.CANCELLED }
      let db1 : DB :=
        { db with products := restoreItems db.products (orderItemsOf db o.oid),
                  orders := db.orders.map (fun x => if x.oid = o.oid then o' else x) }
      let db2 : DB :=
        { db1 with timeline := db1.timeline ++
            [{ order_id := o.oid, status := OrderStatus.CANCELLED,
               note := some "Order cancelled by customer" }] }
      Except.ok (db2, o')

/-- OrderService.update_order_status (services/order.py): administrative
transition — looks the order up by id with no ownership check, sets the
supplied status string with no legality check, appends a timeline entry.
(The completed_at timestamp it may stamp is outside the model.) -/
def update_order_status (order_id : Nat) (new_status : String)
    (note : Option String) (db : DB) : Except Err (DB × Order) :=
  match db.orders.find? (fun o => o.oid == order_id) with
  | none => Except.error (Err.notFound "Order" (toString order_id))
  | some o =>
    let o' := { o with status := new_status }
    let db1 : DB :=
      { db with orders := db.orders.map (fun x => if x.oid = o.oid then o' else x) }
    let db2 : DB :=
      { db1 with timeline := db1.timeline ++
          [{ order_id := o.oid, status := new_status, note := note }] }
    Except.ok (db2, o')

section ListLemmas

variable {α β : Type}

/-- `find?` commutes with a map that does not change the predicate's value
on any element of the list. -/
theorem find?_map_comm (l : List α) (f : α → α) (p : α → Bool)
    (h : ∀ x ∈ l, p (f x) = p x) : (l.map f).find? p = (l.find? p).map f := by
  induction l with
  | nil => rfl
  | cons a t ih =>
    have ha := h a (List.mem_cons_self a t)
    by_cases hp : p a = true
    · simp [List.find?_cons, ha, hp]
    · have hp' : p a = false := by simpa using hp
      simp only [List.map_cons, List.find?_cons, ha, hp']
      exact ih (fun x hx => h x (List.mem_cons_of_mem a hx))

/-- `find?` returns the unique element satisfying the predicate. -/
theorem find?_eq_some_of_unique (l : List α) (p : α → Bool) (x : α)
    (hx : x ∈ l) (hpx : p x = true) (huniq : ∀ y ∈ l, p y = true → y = x) :
    l.find? p = some x := by
  induction l with
  | nil => cases hx
  | cons a t ih =>
    by_cases hp : p a = true
    · have ha : a = x := huniq a (List.mem_cons_self a t) hp
      subst ha
      simp [List.find?_cons, hp]
    · have hp' : p a = false := by simpa using hp
      have hxt : x ∈ t := by
        rcases List.mem_cons.mp hx with rfl | hxt
        · exact absurd hpx hp
        · exact hxt
      simp only [List.find?_cons, hp']
      exact ih hxt (fun y hy => huniq y (List.mem_cons_of_mem a hy))

/-- In a list whose keys are pairwise distinct, equal keys force equal
elements. -/
theorem map_key_nodup_inj (key : α → β) (l : List α) (hn : (l.map key).Nodup)
    {x y : α} (hx : x ∈ l) (hy : y ∈ l) (hk : key x = key y) : x = y := by
  induction l with
  | nil => cases hx
  | cons a t ih =>
    rw [List.map_cons, List.nodup_cons] at hn
    rcases List.mem_cons.mp hx with rfl | hxt
    · rcases List.mem_cons.mp hy with rfl | hyt
      · rfl
      · exact absurd (hk ▸ List.mem_map_of_mem key hyt) hn.1
    · rcases List.mem_cons.mp hy with rfl | hyt
      · exact absurd (hk ▸ List.mem_map_of_mem key hxt) hn.1
      · exact ih hn.2 hxt hyt

/-- `find?` over an append whose left part contains no match. -/
theorem find?_append_left_none (l₁ l₂ : List α) (p : α → Bool)
    (h : ∀ x ∈ l₁, p x = false) : (l₁ ++ l₂).find? p = l₂.find? p := by
  induction l₁ with
  | nil => rfl
  | cons a t ih =>
    simp only [List.cons_append, List.find?_cons, h a (List.mem_cons_self a t)]
    exact ih (fun x hx => h x (List.mem_cons_of_mem a hx))

/-- Folding an accumulating sum equals the sum of the mapped list. -/
theorem foldl_add_eq_sum (f : α → Rat) (l : List α) :
    ∀ a : Rat, l.foldl (fun acc x => acc + f x) a = a + (l.map f).sum := by
  induction l with
  | nil => intro a; simp
  | cons x t ih =>
    intro a
    simp only [List.foldl_cons, List.map_cons, List.sum_cons, ih (a + f x)]
    ring

end ListLemmas


/-- Total quantity the validated pairs demand of the product with id
`pid`. -/
def qtySumL : List (Product × Nat) → Nat → Nat
  | [], _ => 0
  | pq :: rest, pid => (if pq.1.pid = pid then pq.2 else 0) + qtySumL rest pid

/-- Total quantity the order items reference of the product with id
`pid`. -/
def qtySumI : List OrderItem → Nat → Nat
  | [], _ => 0
  | it :: rest, pid => (if it.product_id = some pid then it.quantity else 0) + qtySumI rest pid

/-- The effect of one create_order deduction iteration on one row. -/
def applyLineStep (p : Product) (pq : Product × Nat) : Product :=
  if p.pid = pq.1.pid then deductProduct p pq.2 else p

/-- The effect of the create_order deduction loop on one product row. -/
def applyLines (lines : List (Product × Nat)) (p : Product) : Product :=
  lines.foldl applyLineStep p

/-- The effect of one confirmation deduction iteration on one row; `ps0` is
the table the `if item.product` existence test consults. -/
def applyItemDStep (ps0 : List Product) (p : Product) (it : OrderItem) : Product :=
  match it.product_id with
  | none => p
  | some pid =>
    if (ps0.find? (fun q => q.pid == pid)).isSome then
      (if p.pid = pid then deductProduct p it.quantity else p)
    else p

/-- The effect of the confirmation deduction loop on one product row. -/
def applyItemsD (ps0 : List Product) (items : List OrderItem) (p : Product) : Product :=
  items.foldl (applyItemDStep ps0) p

/-- The effect of one cancellation restoration iteration on one row. -/
def applyItemRStep (ps0 : List Product) (p : Product) (it : OrderItem) : Product :=
  match it.product_id with
  | none => p
  | some pid =>
    if (ps0.find? (fun q => q.pid == pid)).isSome then
      (if p.pid = pid then restoreProduct p it.quantity else p)
    else p

/-- The effect of the cancellation restoration loop on one product row. -/
def applyItemsR (ps0 : List Product) (items : List OrderItem) (p : Product) : Product :=
  items.foldl (applyItemRStep ps0) p

theorem deductProduct_pid (p : Product) (q : Nat) : (deductProduct p q).pid = p.pid := rfl

theorem restoreProduct_pid (p : Product) (q : Nat) : (restoreProduct p q).pid = p.pid := rfl

theorem updateProducts_pids (ps : List Product) (pid : Nat) (f : Product → Product)
    (hf : ∀ p, (f p).pid = p.pid) :
    (updateProducts ps pid f).map (fun p => p.pid) = ps.map (fun p => p.pid) := by
  unfold updateProducts
  rw [List.map_map]
  refine List.map_congr_left (fun p _ => ?_)
  by_cases h : p.pid = pid <;> simp [h, hf]

/-- The existence test of the deduction/restoration loops is stable under
pid-preserving row updates. -/
theorem find?_isSome_updateProducts (ps : List Product) (pid' : Nat)
    (f : Product → Product) (hf : ∀ p, (f p).pid = p.pid) (pid : Nat) :
    ((updateProducts ps pid' f).find? (fun q => q.pid == pid)).isSome
      = (ps.find? (fun q => q.pid == pid)).isSome := by
  unfold updateProducts
  rw [find?_map_comm]
  · exact Option.isSome_map'
  · intro x _
    by_cases h : x.pid = pid' <;> simp [h, hf]

theorem deductItems_cons (ps : List Product) (it : OrderItem) (rest : List OrderItem) :
    deductItems ps (it :: rest) = deductItems (deductItemStep ps it) rest := rfl

theorem restoreItems_cons (ps : List Product) (it : OrderItem) (rest : List OrderItem) :
    restoreItems ps (it :: rest) = restoreItems (restoreItemStep ps it) rest := rfl

theorem applyLines_cons (pq : Product × Nat) (rest : List (Product × Nat)) (p : Product) :
    applyLines (pq :: rest) p = applyLines rest (applyLineStep p pq) := rfl

theorem applyItemsD_cons (ps0 : List Product) (it : OrderItem) (rest : List OrderItem)
    (p : Product) :
    applyItemsD ps0 (it :: rest) p = applyItemsD ps0 rest (applyItemDStep ps0 p it) := rfl

theorem applyItemsR_cons (ps0 : List Product) (it : OrderItem) (rest : List OrderItem)
    (p : Product) :
    applyItemsR ps0 (it :: rest) p = applyItemsR ps0 rest (applyItemRStep ps0 p it) := rfl

/-- The create_order deduction loop, row by row. -/
theorem deductLines_eq_map (lines : List (Product × Nat)) :
    ∀ ps : List Product, deductLines ps lines = ps.map (applyLines lines) := by
  induction lines with
  | nil =>
    intro ps
    simp only [deductLines, List.foldl_nil]
    exact (List.map_id' ps).symm
  | cons pq rest ih =>
    intro ps
    show deductLines (updateProducts ps pq.1.pid (fun p => deductProduct p pq.2)) rest
        = ps.map (applyLines (pq :: rest))
    rw [ih, updateProducts, List.map_map]
    rfl

theorem applyItemDStep_congr (ps0 ps1 : List Product)
    (h : ∀ pid, (ps0.find? (fun q => q.pid == pid)).isSome
        = (ps1.find? (fun q => q.pid == pid)).isSome)
    (p : Product) (it : OrderItem) :
    applyItemDStep ps0 p it = applyItemDStep ps1 p it := by
  rcases hit : it.product_id with _ | pid
  · simp only [applyItemDStep, hit]
  · simp only [applyItemDStep, hit, h pid]

theorem applyItemsD_congr (ps0 ps1 : List Product)
    (h : ∀ pid, (ps0.find? (fun q => q.pid == pid)).isSome
        = (ps1.find? (fun q => q.pid == pid)).isSome)
    (items : List OrderItem) : ∀ p : Product,
      applyItemsD ps0 items p = applyItemsD ps1 items p := by
  induction items with
  | nil => intro p; rfl
  | cons it rest ih =>
    intro p
    rw [applyItemsD_cons, applyItemsD_cons, applyItemDStep_congr ps0 ps1 h, ih]

theorem applyItemRStep_congr (ps0 ps1 : List Product)
    (h : ∀ pid, (ps0.find? (fun q => q.pid == pid)).isSome
        = (ps1.find? (fun q => q.pid == pid)).isSome)
    (p : Product) (it : OrderItem) :
    applyItemRStep ps0 p it = applyItemRStep ps1 p it := by
  rcases hit : it.product_id with _ | pid
  · simp only [applyItemRStep, hit]
  · simp only [applyItemRStep, hit, h pid]

theorem applyItemsR_congr (ps0 ps1 : List Product)
    (h : ∀ pid, (ps0.find? (fun q => q.pid == pid)).isSome
        = (ps1.find? (fun q => q.pid == pid)).isSome)
    (items : List OrderItem) : ∀ p : Product,
      applyItemsR ps0 items p = applyItemsR ps1 items p := by
  induction items with
  | nil => intro p; rfl
  | cons it rest ih =>
    intro p
    rw [applyItemsR_cons, applyItemsR_cons, applyItemRStep_congr ps0 ps1 h, ih]

/-- The confirmation deduction loop, row by row. -/
theorem deductItems_eq_map (items : List OrderItem) :
    ∀ ps : List Product, deductItems ps items = ps.map (applyItemsD ps items) := by
  induction items with
  | nil =>
    intro ps
    simp only [deductItems, List.foldl_nil]
    exact (List.map_id' ps).symm
  | cons it rest ih =>
    intro ps
    rw [deductItems_cons, ih]
    rcases hit : it.product_id with _ | pid
    · simp only [deductItemStep, hit]
      refine List.map_congr_left (fun p _ => ?_)
      rw [applyItemsD_cons]
      simp only [applyItemDStep, hit]
    · by_cases hex : (ps.find? (fun q => q.pid == pid)).isSome = true
      · simp only [deductItemStep, hit, hex, if_true]
        have hstable := find?_isSome_updateProducts ps pid
          (fun p => deductProduct p it.quantity) (fun p => deductProduct_pid p _)
        conv_lhs => rw [updateProducts, List.map_map]
        refine List.map_congr_left (fun p _ => ?_)
        show applyItemsD (updateProducts ps pid fun p => deductProduct p it.quantity) rest
            (if p.pid = pid then deductProduct p it.quantity else p)
          = applyItemsD ps (it :: rest) p
        rw [applyItemsD_congr _ ps hstable]
        rw [applyItemsD_cons]
        simp only [applyItemDStep, hit, hex, if_true]
      · have hex' : (ps.find? (fun q => q.pid == pid)).isSome = false := by simpa using hex
        simp only [deductItemStep, hit, hex', Bool.false_eq_true, if_false]
        refine List.map_congr_left (fun p _ => ?_)
        rw [applyItemsD_cons]
        simp only [applyItemDStep, hit, hex', Bool.false_eq_true, if_false]

/-- The cancellation restoration loop, row by row. -/
theorem restoreItems_eq_map (items : List OrderItem) :
    ∀ ps : List Product, restoreItems ps items = ps.map (applyItemsR ps items) := by
  induction items with
  | nil =>
    intro ps
    simp only [restoreItems, List.foldl_nil]
    exact (List.map_id' ps).symm
  | cons it rest ih =>
    intro ps
    rw [restoreItems_cons, ih]
    rcases hit : it.product_id with _ | pid
    · simp only [restoreItemStep, hit]
      refine List.map_congr_left (fun p _ => ?_)
      rw [applyItemsR_cons]
      simp only [applyItemRStep, hit]
    · by_cases hex : (ps.find? (fun q => q.pid == pid)).isSome = true
      · simp only [restoreItemStep, hit, hex, if_true]
        have hstable := find?_isSome_updateProducts ps pid
          (fun p => restoreProduct p it.quantity) (fun p => restoreProduct_pid p _)
        conv_lhs => rw [updateProducts, List.map_map]
        refine List.map_congr_left (fun p _ => ?_)
        show applyItemsR (updateProducts ps pid fun p => restoreProduct p it.quantity) rest
            (if p.pid = pid then restoreProduct p it.quantity else p)
          = applyItemsR ps (it :: rest) p
        rw [applyItemsR_congr _ ps hstable]
        rw [applyItemsR_cons]
        simp only [applyItemRStep, hit, hex, if_true]
      · have hex' : (ps.find? (fun q => q.pid == pid)).isSome = false := by simpa using hex
        simp only [restoreItemStep, hit, hex', Bool.false_eq_true, if_false]
        refine List.map_congr_left (fun p _ => ?_)
        rw [applyItemsR_cons]
        simp only [applyItemRStep, hit, hex', Bool.false_eq_true, if_false]

theorem applyLineStep_pid (p : Product) (pq : Product × Nat) :
    (applyLineStep p pq).pid = p.pid := by
  unfold applyLineStep
  by_cases h : p.pid = pq.1.pid <;> simp [h, deductProduct_pid]

theorem applyLines_pid (lines : List (Product × Nat)) :
    ∀ p : Product, (applyLines lines p).pid = p.pid := by
  induction lines with
  | nil => intro p; rfl
  | cons pq rest ih =>
    intro p
    rw [applyLines_cons, ih, applyLineStep_pid]

theorem applyItemDStep_pid (ps0 : List Product) (p : Product) (it : OrderItem) :
    (applyItemDStep ps0 p it).pid = p.pid := by
  rcases hit : it.product_id with _ | pid
  · simp only [applyItemDStep, hit]
  · simp only [applyItemDStep, hit]
    by_cases hex : (ps0.find? (fun q => q.pid == pid)).isSome = true
    · by_cases hp : p.pid = pid <;> simp [hex, hp, deductProduct_pid]
    · simp [hex]

theorem applyItemsD_pid (ps0 : List Product) (items : List OrderItem) :
    ∀ p : Product, (applyItemsD ps0 items p).pid = p.pid := by
  induction items with
  | nil => intro p; rfl
  | cons it rest ih =>
    intro p
    rw [applyItemsD_cons, ih, applyItemDStep_pid]

theorem applyItemRStep_pid (ps0 : List Product) (p : Product) (it : OrderItem) :
    (applyItemRStep ps0 p it).pid = p.pid := by
  rcases hit : it.product_id with _ | pid
  · simp only [applyItemRStep, hit]
  · simp only [applyItemRStep, hit]
    by_cases hex : (ps0.find? (fun q => q.pid == pid)).isSome = true
    · by_cases hp : p.pid = pid <;> simp [hex, hp, restoreProduct_pid]
    · simp [hex]

theorem applyItemsR_pid (ps0 : List Product) (items : List OrderItem) :
    ∀ p : Product, (applyItemsR ps0 items p).pid = p.pid := by
  induction items with
  | nil => intro p; rfl
  | cons it rest ih =>
    intro p
    rw [applyItemsR_cons, ih, applyItemRStep_pid]

/-- Stock after the create_order deduction loop: the row loses exactly the
total quantity the lines demand of it. -/
theorem applyLines_stock (lines : List (Product × Nat)) :
    ∀ p : Product,
      (applyLines lines p).stock_quantity
        = p.stock_quantity - (qtySumL lines p.pid : Int) := by
  induction lines with
  | nil => intro p; simp [applyLines, qtySumL]
  | cons pq rest ih =>
    intro p
    rw [applyLines_cons, ih, applyLineStep_pid]
    unfold applyLineStep
    by_cases h : p.pid = pq.1.pid
    · rw [if_pos h]
      simp only [deductProduct, qtySumL, if_pos h.symm]
      push_cast
      ring
    · rw [if_neg h]
      have : ¬ pq.1.pid = p.pid := fun hh => h hh.symm
      simp only [qtySumL, if_neg this]
      push_cast
      ring

/-- Stock after the confirmation deduction loop: a row that exists in the
consulted table loses exactly the total quantity the order items reference
of it. -/
theorem applyItemsD_stock (ps0 : List Product) (items : List OrderItem) :
    ∀ p : Product, (ps0.find? (fun q => q.pid == p.pid)).isSome = true →
      (applyItemsD ps0 items p).stock_quantity
        = p.stock_quantity - (qtySumI items p.pid : Int) := by
  induction items with
  | nil => intro p _; simp [applyItemsD, qtySumI]
  | cons it rest ih =>
    intro p hmem
    rw [applyItemsD_cons]
    rcases hit : it.product_id with _ | pid
    · rw [show applyItemDStep ps0 p it = p by simp only [applyItemDStep, hit]]
      rw [ih p hmem]
      have : ¬ it.product_id = some p.pid := by rw [hit]; intro h; cases h
      simp only [qtySumI, if_neg this]
      push_cast
      ring
    · by_cases hpid : pid = p.pid
      · subst hpid
        have hstep : applyItemDStep ps0 p it = deductProduct p it.quantity := by
          simp only [applyItemDStep, hit, hmem, if_true, if_pos rfl]
        rw [hstep]
        have hmem' : (ps0.find? (fun q => q.pid == (deductProduct p it.quantity).pid)).isSome
            = true := by rw [deductProduct_pid]; exact hmem
        rw [ih _ hmem', deductProduct_pid]
        have : it.product_id = some p.pid := hit
        simp only [qtySumI, if_pos this, deductProduct]
        push_cast
        ring
      · have hstep : applyItemDStep ps0 p it = p := by
          by_cases hex : (ps0.find? (fun q => q.pid == pid)).isSome = true
          · simp only [applyItemDStep, hit, hex, if_true]
            exact if_neg (fun h : p.pid = pid => hpid h.symm)
          · simp only [applyItemDStep, hit]
            simp [hex]
        rw [hstep, ih p hmem]
        have : ¬ it.product_id = some p.pid := by
          rw [hit]; intro h; exact hpid (Option.some.inj h)
        simp only [qtySumI, if_neg this]
        push_cast
        ring

/-- Stock after the cancellation restoration loop: a row that exists in the
consulted table gains exactly the total quantity the order items reference
of it. -/
theorem applyItemsR_stock (ps0 : List Product) (items : List OrderItem) :
    ∀ p : Product, (ps0.find? (fun q => q.pid == p.pid)).isSome = true →
      (applyItemsR ps0 items p).stock_quantity
        = p.stock_quantity + (qtySumI items p.pid : Int) := by
  induction items with
  | nil => intro p _; simp [applyItemsR, qtySumI]
  | cons it rest ih =>
    intro p hmem
    rw [applyItemsR_cons]
    rcases hit : it.product_id with _ | pid
    · rw [show applyItemRStep ps0 p it = p by simp only [applyItemRStep, hit]]
      rw [ih p hmem]
      have : ¬ it.product_id = some p.pid := by rw [hit]; intro h; cases h
      simp only [qtySumI, if_neg this]
      push_cast
      ring
    · by_cases hpid : pid = p.pid
      · subst hpid
        have hstep : applyItemRStep ps0 p it = restoreProduct p it.quantity := by
          simp only [applyItemRStep, hit, hmem, if_true, if_pos rfl]
        rw [hstep]
        have hmem' : (ps0.find? (fun q => q.pid == (restoreProduct p it.quantity).pid)).isSome
            = true := by rw [restoreProduct_pid]; exact hmem
        rw [ih _ hmem', restoreProduct_pid]
        have : it.product_id = some p.pid := hit
        simp only [qtySumI, if_pos this, restoreProduct]
        push_cast
        ring
      · have hstep : applyItemRStep ps0 p it = p := by
          by_cases hex : (ps0.find? (fun q => q.pid == pid)).isSome = true
          · simp only [applyItemRStep, hit, hex, if_true]
            exact if_neg (fun h : p.pid = pid => hpid h.symm)
          · simp only [applyItemRStep, hit]
            simp [hex]
        rw [hstep, ih p hmem]
        have : ¬ it.product_id = some p.pid := by
          rw [hit]; intro h; exact hpid (Option.some.inj h)
        simp only [qtySumI, if_neg this]
        push_cast
        ring

/-- One deduction step keeps the availability flag consistent with the
stock level (needs only `0 ≤ q`, which holds for `Nat` quantities). -/
theorem deductProduct_flag (p : Product) (q : Nat)
    (h : p.in_stock = decide (0 < p.stock_quantity)) :
    (deductProduct p q).in_stock = decide (0 < (deductProduct p q).stock_quantity) := by
  simp only [deductProduct]
  by_cases hs : p.stock_quantity - (q : Int) ≤ 0
  · have h1 : ¬ (0 : Int) < p.stock_quantity - (q : Int) := by omega
    simp [hs, h1]
  · have h1 : (0 : Int) < p.stock_quantity - (q : Int) := by omega
    have h2 : (0 : Int) < p.stock_quantity := by omega
    simp [hs, h, h1, h2]

theorem applyLines_flag (lines : List (Product × Nat)) :
    ∀ p : Product, p.in_stock = decide (0 < p.stock_quantity) →
      (applyLines lines p).in_stock = decide (0 < (applyLines lines p).stock_quantity) := by
  induction lines with
  | nil => intro p h; exact h
  | cons pq rest ih =>
    intro p h
    rw [applyLines_cons]
    refine ih _ ?_
    unfold applyLineStep
    by_cases hp : p.pid = pq.1.pid
    · rw [if_pos hp]; exact deductProduct_flag p pq.2 h
    · rw [if_neg hp]; exact h

theorem applyItemsD_flag (ps0 : List Product) (items : List OrderItem) :
    ∀ p : Product, p.in_stock = decide (0 < p.stock_quantity) →
      (applyItemsD ps0 items p).in_stock
        = decide (0 < (applyItemsD ps0 items p).stock_quantity) := by
  induction items with
  | nil => intro p h; exact h
  | cons it rest ih =>
    intro p h
    rw [applyItemsD_cons]
    refine ih _ ?_
    rcases hit : it.product_id with _ | pid
    · simpa only [applyItemDStep, hit] using h
    · by_cases hex : (ps0.find? (fun q => q.pid == pid)).isSome = true
      · by_cases hp : p.pid = pid
        · have : applyItemDStep ps0 p it = deductProduct p it.quantity := by
            simp only [applyItemDStep, hit, hex, if_true, if_pos hp]
          rw [this]; exact deductProduct_flag p it.quantity h
        · have : applyItemDStep ps0 p it = p := by
            simp only [applyItemDStep, hit, hex, if_true]
            exact if_neg hp
          rw [this]; exact h
      · have : applyItemDStep ps0 p it = p := by
          simp only [applyItemDStep, hit]
          simp [hex]
        rw [this]; exact h

/-- One restoration step keeps the flag consistent and the stock
nonnegative, given a positive quantity and a nonnegative starting stock. -/
theorem restoreProduct_flag (p : Product) (q : Nat) (hq : 1 ≤ q)
    (hnn : 0 ≤ p.stock_quantity) :
    (restoreProduct p q).in_stock = decide (0 < (restoreProduct p q).stock_quantity)
      ∧ 0 ≤ (restoreProduct p q).stock_quantity := by
  simp only [restoreProduct]
  constructor
  · have : (0 : Int) < p.stock_quantity + (q : Int) := by omega
    simp [this]
  · omega

theorem applyItemsR_flag (ps0 : List Product) (items : List OrderItem)
    (hq : ∀ it ∈ items, 1 ≤ it.quantity) :
    ∀ p : Product, p.in_stock = decide (0 < p.stock_quantity) →
      0 ≤ p.stock_quantity →
      (applyItemsR ps0 items p).in_stock
        = decide (0 < (applyItemsR ps0 items p).stock_quantity) := by
  induction items with
  | nil => intro p h _; exact h
  | cons it rest ih =>
    intro p h hnn
    rw [applyItemsR_cons]
    have hq' : ∀ jt ∈ rest, 1 ≤ jt.quantity :=
      fun jt hjt => hq jt (List.mem_cons_of_mem it hjt)
    rcases hit : it.product_id with _ | pid
    · have hstep : applyItemRStep ps0 p it = p := by simp only [applyItemRStep, hit]
      rw [hstep]; exact ih hq' p h hnn
    · by_cases hex : (ps0.find? (fun q => q.pid == pid)).isSome = true
      · by_cases hp : p.pid = pid
        · have hstep : applyItemRStep ps0 p it = restoreProduct p it.quantity := by
            simp only [applyItemRStep, hit, hex, if_true, if_pos hp]
          rw [hstep]
          obtain ⟨h1, h2⟩ :=
            restoreProduct_flag p it.quantity (hq it (List.mem_cons_self it rest)) hnn
          exact ih hq' _ h1 h2
        · have hstep : applyItemRStep ps0 p it = p := by
            simp only [applyItemRStep, hit, hex, if_true]
            exact if_neg hp
          rw [hstep]; exact ih hq' p h hnn
      · have hstep : applyItemRStep ps0 p it = p := by
          simp only [applyItemRStep, hit]
          simp [hex]
        rw [hstep]; exact ih hq' p h hnn

/-- What a successful cart validation guarantees about every returned
pair: the product was resolved from the table, and the requested quantity
did not exceed its stock at validation time. -/
theorem validateCart_mem (db : DB) :
    ∀ (items : List CartItem) (lines : List (Product × Nat)),
      validateCart db items = Except.ok lines →
      ∀ pq ∈ lines, findProduct db pq.1.pid = some pq.1
        ∧ (pq.2 : Int) ≤ pq.1.stock_quantity := by
  intro items
  induction items with
  | nil =>
    intro lines h pq hpq
    simp only [validateCart] at h
    cases h
    cases hpq
  | cons l rest ih =>
    intro lines h pq hpq
    simp only [validateCart] at h
    rcases hfp : findProduct db l.product_id with _ | p <;> rw [hfp] at h
    · cases h
    · dsimp only at h
      by_cases hact : p.is_active = true
      · rw [if_neg (by simp [hact])] at h
        by_cases hstk : p.stock_quantity < (l.quantity : Int)
        · rw [if_pos hstk] at h; cases h
        · rw [if_neg hstk] at h
          rcases hrest : validateCart db rest with e | rest' <;>
            rw [hrest] at h <;>
            simp only [Bind.bind, Except.bind] at h
          · cases h
          · cases h
            rcases List.mem_cons.mp hpq with rfl | hmem
            · refine ⟨?_, by simpa using (show (l.quantity : Int) ≤ p.stock_quantity by omega)⟩
              have hpid : p.pid = l.product_id := by
                have hfp' : List.find? (fun q : Product => q.pid == l.product_id)
                    db.products = some p := by simpa [findProduct] using hfp
                simpa using List.find?_some hfp'
              show findProduct db p.pid = some p
              rw [hpid]; exact hfp
            · exact ih rest' hrest pq hmem
      · rw [if_pos (by simp [hact])] at h; cases h

/-- A successful cart validation pairs the lines with the cart's product
ids, in order. -/
theorem validateCart_pids (db : DB) :
    ∀ (items : List CartItem) (lines : List (Product × Nat)),
      validateCart db items = Except.ok lines →
      lines.map (fun pq => pq.1.pid) = items.map (fun l => l.product_id)
        ∧ lines.map (fun pq => pq.2) = items.map (fun l => l.quantity) := by
  intro items
  induction items with
  | nil =>
    intro lines h
    simp only [validateCart] at h
    cases h
    exact ⟨rfl, rfl⟩
  | cons l rest ih =>
    intro lines h
    simp only [validateCart] at h
    rcases hfp : findProduct db l.product_id with _ | p <;> rw [hfp] at h
    · cases h
    · dsimp only at h
      by_cases hact : p.is_active = true
      · rw [if_neg (by simp [hact])] at h
        by_cases hstk : p.stock_quantity < (l.quantity : Int)
        · rw [if_pos hstk] at h; cases h
        · rw [if_neg hstk] at h
          rcases hrest : validateCart db rest with e | rest' <;>
            rw [hrest] at h <;>
            simp only [Bind.bind, Except.bind] at h
          · cases h
          · cases h
            obtain ⟨h1, h2⟩ := ih rest' hrest
            have hpid : p.pid = l.product_id := by
              have hfp' : List.find? (fun q : Product => q.pid == l.product_id)
                  db.products = some p := by simpa [findProduct] using hfp
              simpa using List.find?_some hfp'
            simp [h1, h2, hpid]
      · rw [if_pos (by simp [hact])] at h; cases h

theorem qtySumL_eq_zero (lines : List (Product × Nat)) (pid : Nat)
    (h : pid ∉ lines.map (fun pq => pq.1.pid)) : qtySumL lines pid = 0 := by
  induction lines with
  | nil => rfl
  | cons pq rest ih =>
    have h1 : ¬ pq.1.pid = pid := by
      intro hh
      exact h (by rw [← hh]; exact List.mem_cons_self _ _)
    have h2 : pid ∉ rest.map (fun pq => pq.1.pid) :=
      fun hh => h (List.mem_cons_of_mem _ hh)
    simp only [qtySumL, if_neg h1, ih h2]

/-- With pairwise-distinct product ids, a line's product receives exactly
that line's quantity. -/
theorem qtySumL_nodup (lines : List (Product × Nat))
    (hn : (lines.map (fun pq => pq.1.pid)).Nodup) :
    ∀ pq ∈ lines, qtySumL lines pq.1.pid = pq.2 := by
  induction lines with
  | nil => intro pq hpq; cases hpq
  | cons hd rest ih =>
    intro pq hpq
    rw [List.map_cons, List.nodup_cons] at hn
    rcases List.mem_cons.mp hpq with rfl | hmem
    · simp only [qtySumL, if_pos rfl]
      rw [qtySumL_eq_zero rest pq.1.pid hn.1]
      simp
    · have hne : ¬ hd.1.pid = pq.1.pid := by
        intro hh
        exact hn.1 (hh ▸ List.mem_map_of_mem (fun pq => pq.1.pid) hmem)
      simp only [qtySumL, if_neg hne]
      rw [ih hn.2 pq hmem]
      simp

theorem qtySumI_eq_zero (items : List OrderItem) (pid : Nat)
    (h : ∀ it ∈ items, it.product_id ≠ some pid) : qtySumI items pid = 0 := by
  induction items with
  | nil => rfl
  | cons it rest ih =>
    simp only [qtySumI, if_neg (h it (List.mem_cons_self it rest))]
    rw [Nat.zero_add]
    exact ih (fun jt hjt => h jt (List.mem_cons_of_mem it hjt))

/-- The order items built from validated lines demand of each product
exactly what the lines demand. -/
theorem qtySumI_buildOrderItems (oid : Nat) (lines : List (Product × Nat)) (pid : Nat) :
    qtySumI (buildOrderItems oid lines) pid = qtySumL lines pid := by
  induction lines with
  | nil => rfl
  | cons pq rest ih =>
    simp only [buildOrderItems, List.map_cons, qtySumI, qtySumL] at *
    by_cases h : pq.1.pid = pid
    · rw [if_pos (by simp [h]), if_pos h, ih]
    · rw [if_neg (by simp [h]), if_neg h, ih]

/-- In a table with pairwise-distinct product ids, looking up a member's
id returns that member. -/
theorem find?_pid_of_mem (ps : List Product)
    (hn : (ps.map (fun p => p.pid)).Nodup) (p : Product) (hp : p ∈ ps) :
    ps.find? (fun q => q.pid == p.pid) = some p := by
  refine find?_eq_some_of_unique ps _ p hp (by simp) (fun y hy hpy => ?_)
  exact map_key_nodup_inj (fun p => p.pid) ps hn hy hp (by simpa using hpy)

/-- The subtotal accumulator equals the sum of the built items' line
totals. -/
theorem cartSubtotal_eq_sum (oid : Nat) (lines : List (Product × Nat)) :
    cartSubtotal lines = ((buildOrderItems oid lines).map (fun it => it.total_price)).sum := by
  unfold cartSubtotal buildOrderItems
  rw [foldl_add_eq_sum, List.map_map]
  rw [Rat.zero_add]
  exact congrArg List.sum (List.map_congr_left fun pq _ => rfl)

/-- Items built for an order carry that order's id. -/
theorem buildOrderItems_order_id (oid : Nat) (lines : List (Product × Nat)) :
    ∀ it ∈ buildOrderItems oid lines, it.order_id = oid := by
  intro it hit
  obtain ⟨pq, _, rfl⟩ := List.mem_map.mp hit
  rfl

theorem buildOrderItems_total (oid : Nat) (lines : List (Product × Nat)) :
    ∀ it ∈ buildOrderItems oid lines, it.total_price = it.unit_price * (it.quantity : Rat) := by
  intro it hit
  obtain ⟨pq, _, rfl⟩ := List.mem_map.mp hit
  rfl

/-!  Well-formedness of database states.  These express the uniqueness the
real schema enforces (primary keys, the unique index on order_number, the
autoincrement discipline) and the cart shape CartService maintains (one
line per product, quantities validated as ≥ 1 by the schemas). -/

/-- Product primary keys are pairwise distinct. -/
def ProductsWF (db : DB) : Prop := (db.products.map (fun p => p.pid)).Nodup

/-- Every cart holds at most one line per product (CartService.add_item
merges an existing line instead of adding a second one). -/
def CartsWF (db : DB) : Prop :=
  ∀ c ∈ db.carts, (c.items.map (fun l => l.product_id)).Nodup

/-- Order numbers are pairwise distinct (unique index on
orders.order_number). -/
def OrderNumbersWF (db : DB) : Prop :=
  (db.orders.map (fun o => o.order_number)).Nodup

/-- Order primary keys are pairwise distinct. -/
def OidsWF (db : DB) : Prop := (db.orders.map (fun o => o.oid)).Nodup

/-- Every persisted id is below the autoincrement counter. -/
def IdsWF (db : DB) : Prop :=
  (∀ o ∈ db.orders, o.oid < db.next_order_id) ∧
  (∀ it ∈ db.order_items, it.order_id < db.next_order_id)

/-- Every product's stock is nonnegative. -/
def StockNonneg (db : DB) : Prop := ∀ p ∈ db.products, 0 ≤ p.stock_quantity

/-- Every product's availability flag agrees with its stock level. -/
def FlagsWF (db : DB) : Prop :=
  ∀ p ∈ db.products, p.in_stock = decide (0 < p.stock_quantity)

/-- Every order item's quantity is at least 1 (schema bound `ge=1` on cart
quantities, from which order items are built). -/
def ItemQtysWF (db : DB) : Prop := ∀ it ∈ db.order_items, 1 ≤ it.quantity

instance (db : DB) : Decidable (ProductsWF db) := by unfold ProductsWF; infer_instance

instance (db : DB) : Decidable (CartsWF db) := by unfold CartsWF; infer_instance

instance (db : DB) : Decidable (OrderNumbersWF db) := by unfold OrderNumbersWF; infer_instance

instance (db : DB) : Decidable (OidsWF db) := by unfold OidsWF; infer_instance

instance (db : DB) : Decidable (IdsWF db) := by unfold IdsWF; infer_instance

instance (db : DB) : Decidable (StockNonneg db) := by unfold StockNonneg; infer_instance

instance (db : DB) : Decidable (FlagsWF db) := by unfold FlagsWF; infer_instance

instance (db : DB) : Decidable (ItemQtysWF db) := by unfold ItemQtysWF; infer_instance

/-- Cart clearing touches only the carts table. -/
theorem clearCartOf_products (db : DB) (cu : Option Nat) :
    (clearCartOf db cu).products = db.products := by
  unfold clearCartOf
  rcases cu with _ | u
  · rfl
  · rcases h : findCart db u with _ | c <;> simp [h]

theorem clearCartOf_orders (db : DB) (cu : Option Nat) :
    (clearCartOf db cu).orders = db.orders := by
  unfold clearCartOf
  rcases cu with _ | u
  · rfl
  · rcases h : findCart db u with _ | c <;> simp [h]

theorem clearCartOf_order_items (db : DB) (cu : Option Nat) :
    (clearCartOf db cu).order_items = db.order_items := by
  unfold clearCartOf
  rcases cu with _ | u
  · rfl
  · rcases h : findCart db u with _ | c <;> simp [h]

theorem clearCartOf_timeline (db : DB) (cu : Option Nat) :
    (clearCartOf db cu).timeline = db.timeline := by
  unfold clearCartOf
  rcases cu with _ | u
  · rfl
  · rcases h : findCart db u with _ | c <;> simp [h]

theorem clearCartOf_next (db : DB) (cu : Option Nat) :
    (clearCartOf db cu).next_order_id = db.next_order_id := by
  unfold clearCartOf
  rcases cu with _ | u
  · rfl
  · rcases h : findCart db u with _ | c <;> simp [h]

theorem clearCartOf_carts (db : DB) (cu : Option Nat) :
    (clearCartOf db cu).carts = db.carts ∨
    ∃ cid, (clearCartOf db cu).carts = clearCartRow db.carts cid := by
  unfold clearCartOf
  rcases cu with _ | u
  · exact Or.inl rfl
  · rcases h : findCart db u with _ | c
    · simp [h]
    · simp only [h]
      exact Or.inr ⟨c.cid, rfl⟩

/-- Field-level description of the confirmation body. -/
theorem confirmOrder_products (db : DB) (o : Order) (note : String) (cu : Option Nat) :
    (confirmOrder db o note cu).products
      = deductItems db.products (orderItemsOf db o.oid) := by
  unfold confirmOrder
  rw [clearCartOf_products]
  rfl

theorem confirmOrder_orders (db : DB) (o : Order) (note : String) (cu : Option Nat) :
    (confirmOrder db o note cu).orders
      = db.orders.map (fun x => if x.oid = o.oid then
          { o with payment_status := PaymentStatus.PAID,
                   status := OrderStatus.CONFIRMED } else x) := by
  unfold confirmOrder
  rw [clearCartOf_orders]

theorem confirmOrder_order_items (db : DB) (o : Order) (note : String) (cu : Option Nat) :
    (confirmOrder db o note cu).order_items = db.order_items := by
  unfold confirmOrder
  rw [clearCartOf_order_items]

theorem confirmOrder_timeline (db : DB) (o : Order) (note : String) (cu : Option Nat) :
    (confirmOrder db o note cu).timeline
      = db.timeline ++ [{ order_id := o.oid, status := OrderStatus.CONFIRMED,
                          note := some note }] := by
  unfold confirmOrder
  rw [clearCartOf_timeline]

theorem confirmOrder_next (db : DB) (o : Order) (note : String) (cu : Option Nat) :
    (confirmOrder db o note cu).next_order_id = db.next_order_id := by
  unfold confirmOrder
  rw [clearCartOf_next]

theorem confirmOrder_carts (db : DB) (o : Order) (note : String) (cu : Option Nat) :
    (confirmOrder db o note cu).carts = db.carts ∨
    ∃ cid, (confirmOrder db o note cu).carts = clearCartRow db.carts cid := by
  unfold confirmOrder
  exact clearCartOf_carts _ cu

/-- Inversion of a successful create_order call. -/
theorem create_order_inv (user : User) (pm : String) (pl note : Option String)
    (onum pcode : String) (db db' : DB) (o : Order)
    (h : create_order user pm pl note onum pcode db = Except.ok (db', o)) :
    ∃ cart lines, findCart db user.uid = some cart ∧
      validateCart db cart.items = Except.ok lines ∧
      o = { oid := db.next_order_id, user_id := some user.uid, order_number := onum,
            subtotal := cartSubtotal lines, delivery_fee := 0, total := cartSubtotal lines,
            status := OrderStatus.PENDING, payment_status := PaymentStatus.PENDING,
            payment_method := some pm, pickup_location := pl, pickup_code := some pcode,
            customer_name := user.name, customer_phone := user.phone,
            customer_email := some user.email, customer_note := note } ∧
      db' = { products := deductLines db.products lines,
              carts := clearCartRow db.carts cart.cid,
              orders := db.orders ++ [o],
              order_items := db.order_items ++ buildOrderItems db.next_order_id lines,
              timeline := db.timeline ++
                [{ order_id := db.next_order_id, status := OrderStatus.PENDING,
                   note := some "Order placed successfully" }],
              next_order_id := db.next_order_id + 1 } := by
  unfold create_order at h
  rcases hc : findCart db user.uid with _ | cart <;> rw [hc] at h
  · cases h
  · dsimp only at h
    by_cases he : cart.items.isEmpty = true
    · rw [if_pos he] at h; cases h
    · rw [if_neg he] at h
      rcases hv : validateCart db cart.items with e | lines <;> rw [hv] at h <;>
        simp only [Bind.bind, Except.bind] at h
      · cases h
      · cases h
        exact ⟨cart, lines, rfl, hv, rfl, rfl⟩

/-- Inversion of a successful initialize_payment call (database phase). -/
theorem initialize_payment_inv (user : User) (pl note : Option String)
    (onum pcode : String) (db db' : DB) (o : Order)
    (h : initialize_payment user pl note onum pcode db = Except.ok (db', o)) :
    ∃ cart lines, findCart db user.uid = some cart ∧
      validateCart db cart.items = Except.ok lines ∧
      o = { oid := db.next_order_id, user_id := some user.uid, order_number := onum,
            subtotal := cartSubtotal lines, delivery_fee := 0, total := cartSubtotal lines,
            status := OrderStatus.PENDING, payment_status := PaymentStatus.PENDING,
            payment_method := some "paystack", pickup_location := pl, pickup_code := some pcode,
            customer_name := user.nickname.getD user.name, customer_phone := user.phone,
            customer_email := some user.email, customer_note := note } ∧
      db' = { products := db.products,
              carts := db.carts,
              orders := db.orders ++ [o],
              order_items := db.order_items ++ buildOrderItems db.next_order_id lines,
              timeline := db.timeline ++
                [{ order_id := db.next_order_id, status := OrderStatus.PENDING,
                   note := some "Order created, awaiting payment" }],
              next_order_id := db.next_order_id + 1 } := by
  unfold initialize_payment at h
  rcases hc : findCart db user.uid with _ | cart <;> rw [hc] at h
  · cases h
  · dsimp only at h
    by_cases he : cart.items.isEmpty = true
    · rw [if_pos he] at h; cases h
    · rw [if_neg he] at h
      by_cases hp : user.profile_completed = true
      · rw [if_neg (by simp [hp])] at h
        rcases hv : validateCart db cart.items with e | lines <;> rw [hv] at h <;>
          simp only [Bind.bind, Except.bind] at h
        · cases h
        · cases h
          exact ⟨cart, lines, rfl, hv, rfl, rfl⟩
      · rw [if_pos (by simp [hp])] at h; cases h

/-- Inversion of a successful verify_payment call: either the idempotent
read of an already-paid order, or a fresh confirmation. -/
theorem verify_payment_inv (reference : String) (user : User) (ps : PSData)
    (db db' : DB) (r : PaymentVerifyResponse)
    (h : verify_payment reference user ps db = Except.ok (db', r)) :
    ps.status = "success" ∧
    ∃ o, verifyLookup db reference user = some o ∧
      ((o.payment_status = PaymentStatus.PAID ∧ db' = db ∧ r = mkVerifyResponse o) ∨
       (o.payment_status ≠ PaymentStatus.PAID ∧ ps.amount = expected_kobo o.total ∧
        db' = confirmOrder db o
          ("Payment confirmed via Paystack (ref: " ++ reference ++ ")") (some user.uid) ∧
        r = mkVerifyResponse { o with payment_status := PaymentStatus.PAID,
                                      status := OrderStatus.CONFIRMED })) := by
  unfold verify_payment at h
  by_cases hs : ps.status = "success"
  · rw [if_neg (by simp [hs])] at h
    refine ⟨hs, ?_⟩
    rcases hl : verifyLookup db reference user with _ | o <;> rw [hl] at h
    · cases h
    · dsimp only at h
      refine ⟨o, rfl, ?_⟩
      by_cases hpaid : o.payment_status = PaymentStatus.PAID
      · rw [if_pos (by simp [hpaid])] at h
        cases h
        exact Or.inl ⟨hpaid, rfl, rfl⟩
      · rw [if_neg (by simp [hpaid])] at h
        by_cases hamt : ps.amount = expected_kobo o.total
        · rw [if_neg (by simp [hamt])] at h
          cases h
          exact Or.inr ⟨hpaid, hamt, rfl, rfl⟩
        · rw [if_pos hamt] at h; cases h
  · rw [if_pos hs] at h; cases h

/-- Case analysis of handle_webhook: a no-op, or the confirmation of the
unpaid order the reference names. -/
theorem handle_webhook_cases (payload : WebhookPayload) (db : DB) :
    handle_webhook payload db = db ∨
    ∃ o, payload.event = "charge.success" ∧
      webhookLookup db payload.data.reference = some o ∧
      o.payment_status ≠ PaymentStatus.PAID ∧
      handle_webhook payload db = confirmOrder db o
        ("Payment confirmed via webhook (ref: " ++ payload.data.reference ++ ")")
        o.user_id := by
  unfold handle_webhook
  by_cases hev : payload.event == "charge.success"
  · rw [if_pos hev]
    dsimp only
    rcases hl : webhookLookup db payload.data.reference with _ | o
    · exact Or.inl rfl
    · dsimp only
      by_cases hpaid : o.payment_status = PaymentStatus.PAID
      · rw [if_pos (by simp [hpaid])]
        exact Or.inl rfl
      · rw [if_neg (by simp [hpaid])]
        exact Or.inr ⟨o, by simpa using hev, rfl, hpaid, rfl⟩
  · rw [if_neg hev]
    exact Or.inl rfl

/-- Inversion of a successful cancel_order call. -/
theorem cancel_order_inv (user : User) (order_id : Nat) (db db' : DB) (r : Order)
    (h : cancel_order user order_id db = Except.ok (db', r)) :
    ∃ o, ownedOrderLookup db user order_id = some o ∧
      (o.status = OrderStatus.PENDING ∨ o.status = OrderStatus.CONFIRMED) ∧
      r = { o with status := OrderStatus.CANCELLED } ∧
      db' = { products := restoreItems db.products (orderItemsOf db o.oid),
              carts := db.carts,
              orders := db.orders.map (fun x => if x.oid = o.oid then
                { o with status := OrderStatus.CANCELLED } else x),
              order_items := db.order_items,
              timeline := db.timeline ++
                [{ order_id := o.oid, status := OrderStatus.CANCELLED,
                   note := some "Order cancelled by customer" }],
              next_order_id := db.next_order_id } := by
  unfold cancel_order at h
  rcases hl : ownedOrderLookup db user order_id with _ | o <;> rw [hl] at h
  · cases h
  · dsimp only at h
    by_cases hst : (o.status == OrderStatus.PENDING || o.status == OrderStatus.CONFIRMED) = true
    · rw [if_neg (by simp [hst])] at h
      cases h
      refine ⟨o, rfl, by simpa using hst, rfl, rfl⟩
    · have hst' : (o.status == OrderStatus.PENDING || o.status == OrderStatus.CONFIRMED) = false := by
        simpa using hst
      rw [if_pos (by simp [hst'])] at h
      cases h

/-- Inversion of a successful update_order_status call. -/
theorem update_order_status_inv (order_id : Nat) (new_status : String)
    (note : Option String) (db db' : DB) (r : Order)
    (h : update_order_status order_id new_status note db = Except.ok (db', r)) :
    ∃ o, db.orders.find? (fun x => x.oid == order_id) = some o ∧
      r = { o with status := new_status } ∧
      db' = { products := db.products,
              carts := db.carts,
              orders := db.orders.map (fun x => if x.oid = o.oid then
                { o with status := new_status } else x),
              order_items := db.order_items,
              timeline := db.timeline ++
                [{ order_id := o.oid, status := new_status, note := note }],
              next_order_id := db.next_order_id } := by
  unfold update_order_status at h
  rcases hl : db.orders.find? (fun x => x.oid == order_id) with _ | o <;> rw [hl] at h
  · cases h
  · dsimp only at h
    cases h
    exact ⟨o, hl, rfl, rfl⟩

/-!  Concrete states used by the closed theorems below (counterexamples and
witnesses).  They mirror the scenario of spec §8: product price 12500,
two users with carts over the same product. -/

/-- A product with ten units in stock. -/
def exProduct : Product :=
  { pid := 1, name := "A", price := 12500, stock_quantity := 10,
    in_stock := true, is_active := true, image_url := "img" }

def exUser : User :=
  { uid := 1, name := "U1", nickname := none, phone := "p1",
    email := "e1", profile_completed := true }

def exUser2 : User :=
  { uid := 2, name := "U2", nickname := none, phone := "p2",
    email := "e2", profile_completed := true }

/-- Ten units of stock, user 1 wants two of them. -/
def exDb0 : DB :=
  { products := [exProduct],
    carts := [{ cid := 1, user_id := 1, items := [{ product_id := 1, quantity := 2 }] }],
    orders := [], order_items := [], timeline := [], next_order_id := 1 }

/-- exDb0 after user 1 initialized a gateway payment (order "N2",
total 25000, payment PENDING, stock untouched). -/
def exDb1 : DB :=
  ((initialize_payment exUser none none "N2" "222222" exDb0).toOption.map Prod.fst).getD exDb0

/-- Five units of stock; user 1 and user 2 both want five. -/
def exDbX0 : DB :=
  { products := [{ pid := 1, name := "A", price := 12500, stock_quantity := 5,
                   in_stock := true, is_active := true, image_url := "img" }],
    carts := [{ cid := 1, user_id := 1, items := [{ product_id := 1, quantity := 5 }] },
              { cid := 2, user_id := 2, items := [{ product_id := 1, quantity := 5 }] }],
    orders := [], order_items := [], timeline := [], next_order_id := 1 }

/-- exDbX0 after user 1 initialized a gateway payment for five units. -/
def exDbX1 : DB :=
  ((initialize_payment exUser none none "NX" "333333" exDbX0).toOption.map Prod.fst).getD exDbX0

/-- exDbX1 after user 2 bought the five units pay-on-pickup (stock 0). -/
def exDbX2 : DB :=
  ((create_order exUser2 "cash_on_pickup" none none "NY" "444444" exDbX1).toOption.map Prod.fst).getD exDbX1

/-- exDbX2 after the gateway verify call confirmed user 1's order with the
exactly matching amount: the unchecked deduction drives stock to -5. -/
def exDbX3 : DB :=
  ((verify_payment "JEMI-NX" exUser { status := "success", amount := 6250000 } exDbX2).toOption.map Prod.fst).getD exDbX2

/-- A COMPLETED (terminal) paid order. -/
def exTermOrder : Order :=
  { oid := 1, user_id := some 1, order_number := "NC", subtotal := 100,
    delivery_fee := 0, total := 100, status := OrderStatus.COMPLETED,
    payment_status := PaymentStatus.PAID, payment_method := some "cash_on_pickup",
    pickup_location := none, pickup_code := some "123456", customer_name := "U1",
    customer_phone := "p1", customer_email := some "e1", customer_note := none }

def exTermDb : DB :=
  { products := [], carts := [], orders := [exTermOrder], order_items := [],
    timeline := [], next_order_id := 2 }

/-- C5: for every order whose status is not in {PENDING, CONFIRMED},
cancel_order fails with the transition-guard error — the
BadRequestException carrying "Cannot cancel order with status ...", which
the spec's error taxonomy names InvalidTransition — and performs no
mutation: the call returns an error and no new database state, so every
product's stock_quantity and in_stock flag, the order's status, and the
timeline are exactly as before the call. -/
theorem cancel_order_transition_guard
    (db : DB) (user : User) (order_id : Nat) (o : Order)
    (hfind : ownedOrderLookup db user order_id = some o)
    (hpend : o.status ≠ OrderStatus.PENDING)
    (hconf : o.status ≠ OrderStatus.CONFIRMED) :
    cancel_order user order_id db =
      Except.error (Err.badRequest ("Cannot cancel order with status '" ++ o.status ++ "'")) := by
  unfold cancel_order
  rw [hfind]
  dsimp only
  rw [if_pos (by simp [hpend, hconf])]

/-- Witness for C5: cancelling the COMPLETED order of exTermDb fails with
the transition-guard error. -/
theorem cancel_order_transition_guard_witness :
    cancel_order exUser 1 exTermDb =
      Except.error (Err.badRequest ("Cannot cancel order with status '"
        ++ exTermOrder.status ++ "'")) :=
  cancel_order_transition_guard exTermDb exUser 1 exTermOrder (by decide)
    (by decide) (by decide)

/-- C6: initializing a gateway payment creates the order — appended to the
orders table with status PENDING and payment_status PENDING — without
mutating any product's stock_quantity or in_stock flag and without touching
any cart: the products and carts tables are exactly the pre-call values. -/
theorem initialize_payment_frame
    (user : User) (pl note : Option String) (onum pcode : String)
    (db db' : DB) (o : Order)
    (h : initialize_payment user pl note onum pcode db = Except.ok (db', o)) :
    o.status = OrderStatus.PENDING ∧ o.payment_status = PaymentStatus.PENDING ∧
    db'.orders = db.orders ++ [o] ∧
    db'.products = db.products ∧ db'.carts = db.carts := by
  obtain ⟨cart, lines, hc, hv, ho, hdb⟩ := initialize_payment_inv user pl note onum pcode db db' o h
  subst ho
  subst hdb
  exact ⟨rfl, rfl, rfl, rfl, rfl⟩

/-- The order created by the gateway initialization of exDb0. -/
def exOrderN2 : Order :=
  { oid := 1, user_id := some 1, order_number := "N2", subtotal := 25000,
    delivery_fee := 0, total := 25000, status := OrderStatus.PENDING,
    payment_status := PaymentStatus.PENDING, payment_method := some "paystack",
    pickup_location := none, pickup_code := some "222222", customer_name := "U1",
    customer_phone := "p1", customer_email := some "e1", customer_note := none }

/-- Witness for C6: the gateway initialization of exDb0 leaves the ten
units of stock and the single cart line in place. -/
theorem initialize_payment_frame_witness :
    exOrderN2.status = OrderStatus.PENDING ∧
    exOrderN2.payment_status = PaymentStatus.PENDING ∧
    exDb1.orders = exDb0.orders ++ [exOrderN2] ∧
    exDb1.products = exDb0.products ∧ exDb1.carts = exDb0.carts :=
  initialize_payment_frame exUser none none "N2" "222222" exDb0 exDb1 exOrderN2
    (by decide)

/-- Evaluation of the reference-to-order-number derivation on the sample
reference. -/
theorem stripRef_JEMI_N2 : stripRef "JEMI-N2" = "N2" := by
  with_unfolding_all decide

/-- The verify-path lookup of the sample reference by its owner. -/
theorem verifyLookup_exDb1 : verifyLookup exDb1 "JEMI-N2" exUser = some exOrderN2 := by
  unfold verifyLookup
  simp only [stripRef_JEMI_N2]
  decide

/-- The webhook-path lookup of the sample reference. -/
theorem webhookLookup_exDb1 : webhookLookup exDb1 "JEMI-N2" = some exOrderN2 := by
  unfold webhookLookup
  simp only [stripRef_JEMI_N2]
  decide

/-- Evaluation of the webhook on the sample state: it confirms order N2. -/
theorem handle_webhook_exDb1 (a : Int) (st : String) :
    handle_webhook ⟨"charge.success", ⟨"JEMI-N2", a, st⟩⟩ exDb1
      = confirmOrder exDb1 exOrderN2
          "Payment confirmed via webhook (ref: JEMI-N2)" (some 1) := by
  unfold handle_webhook
  dsimp only
  rw [if_pos (by decide)]
  rw [webhookLookup_exDb1]
  dsimp only
  rw [if_neg (by decide)]
  rfl

/-- An order whose total 0.29 falls between binary64 grid points: the
code's `int(float(total) * 100)` is 28, while total × 100 = 29. -/
def exOrderNF : Order :=
  { oid := 1, user_id := some 1, order_number := "NF", subtotal := 29/100,
    delivery_fee := 0, total := 29/100, status := OrderStatus.PENDING,
    payment_status := PaymentStatus.PENDING, payment_method := some "paystack",
    pickup_location := none, pickup_code := some "555555", customer_name := "U1",
    customer_phone := "p1", customer_email := some "e1", customer_note := none }

def exDbF : DB :=
  { products := [], carts := [], orders := [exOrderNF], order_items := [],
    timeline := [], next_order_id := 2 }

/-- Evaluation of the reference derivation on the 0.29 order's reference. -/
theorem stripRef_JEMI_NF : stripRef "JEMI-NF" = "NF" := by
  with_unfolding_all decide

/-- The verify-path lookup of that reference by the order's owner. -/
theorem verifyLookup_exDbF : verifyLookup exDbF "JEMI-NF" exUser = some exOrderNF := by
  unfold verifyLookup
  simp only [stripRef_JEMI_NF]
  decide

/-- Evaluation of verify on the 0.29 order with reported amount 28 kobo:
the float-derived expected amount is also 28, so the call confirms. -/
theorem verify_payment_exDbF :
    verify_payment "JEMI-NF" exUser ⟨"success", 28⟩ exDbF
      = Except.ok (confirmOrder exDbF exOrderNF
            "Payment confirmed via Paystack (ref: JEMI-NF)" (some 1),
          mkVerifyResponse { exOrderNF with payment_status := PaymentStatus.PAID,
                                            status := OrderStatus.CONFIRMED }) := by
  unfold verify_payment
  rw [if_neg (by decide), verifyLookup_exDbF]
  dsimp only
  rw [if_neg (by decide), if_neg (by decide)]
  rfl

/-- Counterexample for C2, refuting both halves of the claim.  Webhook
half: a charge.success webhook whose reported amount (1 kobo) differs from
order.total × 100 (2500000 kobo) does not raise the amount-mismatch error —
handle_webhook checks no amount at all: it marks the order PAID, mutating
the state.  Verify half: the check compares the reported amount against
int(float(order.total) * 100), not against order.total × 100; on the order
with total 0.29 the code expects 28 kobo, so a reported amount of
28 ≠ 29 = total × 100 is accepted and the order is confirmed PAID instead
of the amount-mismatch error being raised. -/
theorem amount_check_counterexample :
    ((1 : Int) ≠ pyInt (exOrderN2.total * 100) ∧
     handle_webhook ⟨"charge.success", ⟨"JEMI-N2", 1, "success"⟩⟩ exDb1 ≠ exDb1 ∧
     ((handle_webhook ⟨"charge.success", ⟨"JEMI-N2", 1, "success"⟩⟩ exDb1).orders.map
       (fun o => o.payment_status)) = [PaymentStatus.PAID]) ∧
    ((28 : Int) ≠ pyInt (exOrderNF.total * 100) ∧
     expected_kobo exOrderNF.total = 28 ∧
     ((verify_payment "JEMI-NF" exUser ⟨"success", 28⟩ exDbF).toOption.map
       (fun x => x.1.orders.map (fun o => o.payment_status))) = some [PaymentStatus.PAID]) := by
  refine ⟨⟨by decide, ?_, ?_⟩, by decide, by decide, ?_⟩
  · intro h
    have h2 : (confirmOrder exDb1 exOrderN2
        "Payment confirmed via webhook (ref: JEMI-N2)" (some 1)).orders
        = exDb1.orders := by rw [← handle_webhook_exDb1 1 "success", h]
    rw [confirmOrder_orders] at h2
    exact absurd (congrArg (fun l => l.map (fun o => o.payment_status)) h2) (by decide)
  · rw [handle_webhook_exDb1 1 "success", confirmOrder_orders]
    decide
  · rw [verify_payment_exDbF]
    decide

/-- C2 (amended): for a not-yet-paid order, the verify path raises the
amount-mismatch error (leaving the state untouched — the error is raised
before any mutation) whenever the gateway-reported amount differs from
int(float(order.total) * 100), the binary64-rounded minor-unit conversion
the code computes — which can differ from the exact order.total × 100
(total 0.29 yields an expected 28); the webhook path performs no amount
comparison at all — its result is independent of the reported amount. -/
theorem amount_mismatch_verify_only
    (db : DB) (reference : String) (user : User) (ps : PSData) (o : Order)
    (hs : ps.status = "success")
    (hfind : verifyLookup db reference user = some o)
    (hnp : o.payment_status ≠ PaymentStatus.PAID)
    (hamt : ps.amount ≠ expected_kobo o.total) :
    verify_payment reference user ps db
      = Except.error (Err.paymentFailed "Payment amount mismatch") ∧
    ∀ (pl : WebhookPayload) (a b : Int),
      handle_webhook { pl with data := { pl.data with amount := a } } db
        = handle_webhook { pl with data := { pl.data with amount := b } } db := by
  constructor
  · unfold verify_payment
    rw [if_neg (by simp [hs]), hfind]
    dsimp only
    rw [if_neg (by simp [hnp]), if_pos hamt]
  · intro pl a b
    rfl

/-- Witness for C2 (amended): verifying order N2 (total 25000) with a
reported amount of 1 kobo raises the amount-mismatch error. -/
theorem amount_mismatch_verify_only_witness :
    verify_payment "JEMI-N2" exUser ⟨"success", 1⟩ exDb1
      = Except.error (Err.paymentFailed "Payment amount mismatch") ∧
    ∀ (pl : WebhookPayload) (a b : Int),
      handle_webhook { pl with data := { pl.data with amount := a } } exDb1
        = handle_webhook { pl with data := { pl.data with amount := b } } exDb1 :=
  amount_mismatch_verify_only exDb1 "JEMI-N2" exUser
    ⟨"success", 1⟩ exOrderN2 rfl verifyLookup_exDb1 (by decide) (by decide)

/-- Counterexample for C4: the administrative status update moves the
COMPLETED order of exTermDb straight back to PENDING — no guard keeps an
order in a terminal status. -/
theorem update_status_escapes_terminal :
    exTermOrder.status = OrderStatus.COMPLETED ∧
    ((update_order_status 1 OrderStatus.PENDING none exTermDb).toOption.map
      (fun x => x.1.orders.map (fun o => o.status))) = some [OrderStatus.PENDING] := by
  refine ⟨rfl, by decide⟩

/-- C4 (amended): only the customer cancellation path guards terminal
statuses.  For an order in COMPLETED or CANCELLED: cancel_order by its
owner fails with the transition-guard error; any successful cancel_order
call (necessarily of a different, PENDING/CONFIRMED order) leaves the
terminal order untouched in the table; and both creation paths only
append, never touching existing orders.  The administrative
update_order_status, by contrast, overwrites any status without a guard
(see the counterexample), so the claim as stated fails. -/
theorem terminal_status_guarded_only_by_cancel
    (db : DB) (o : Order) (hoid : OidsWF db) (ho : o ∈ db.orders)
    (hterm : o.status = OrderStatus.COMPLETED ∨ o.status = OrderStatus.CANCELLED) :
    (∀ user : User, ownedOrderLookup db user o.oid = some o →
      cancel_order user o.oid db = Except.error
        (Err.badRequest ("Cannot cancel order with status '" ++ o.status ++ "'"))) ∧
    (∀ (user : User) (order_id : Nat) (db₂ : DB) (r : Order),
      cancel_order user order_id db = Except.ok (db₂, r) → o ∈ db₂.orders) ∧
    (∀ (user : User) (pm : String) (pl note : Option String) (onum pcode : String)
        (db₂ : DB) (r : Order),
      create_order user pm pl note onum pcode db = Except.ok (db₂, r) → o ∈ db₂.orders) ∧
    (∀ (user : User) (pl note : Option String) (onum pcode : String)
        (db₂ : DB) (r : Order),
      initialize_payment user pl note onum pcode db = Except.ok (db₂, r) → o ∈ db₂.orders) := by
  have hne : o.status ≠ OrderStatus.PENDING ∧ o.status ≠ OrderStatus.CONFIRMED := by
    rcases hterm with h | h <;> rw [h] <;> exact ⟨by decide, by decide⟩
  refine ⟨?_, ?_, ?_, ?_⟩
  · intro user hfind
    unfold cancel_order
    rw [hfind]
    dsimp only
    rw [if_pos (by simp [hne.1, hne.2])]
  · intro user order_id db₂ r hc
    obtain ⟨o₀, hl, hst, hr, hdb⟩ := cancel_order_inv user order_id db db₂ r hc
    subst hdb
    have ho₀ : o₀ ∈ db.orders := by
      have := List.mem_of_find?_eq_some hl
      exact this
    have hupd : (if o.oid = o₀.oid then
        { o₀ with status := OrderStatus.CANCELLED } else o) = o := by
      by_cases h : o.oid = o₀.oid
      · exfalso
        have hoid' : (db.orders.map (fun x => x.oid)).Nodup := hoid
        have : o = o₀ := map_key_nodup_inj (fun x => x.oid) db.orders hoid' ho ho₀ h
        subst this
        rcases hst with h1 | h1
        · exact hne.1 h1
        · exact hne.2 h1
      · exact if_neg h
    show o ∈ db.orders.map (fun x => if x.oid = o₀.oid then
      { o₀ with status := OrderStatus.CANCELLED } else x)
    exact List.mem_map.mpr ⟨o, ho, hupd⟩
  · intro user pm pl note onum pcode db₂ r hc
    obtain ⟨cart, lines, _, _, _, hdb⟩ := create_order_inv user pm pl note onum pcode db db₂ r hc
    subst hdb
    exact List.mem_append_left _ ho
  · intro user pl note onum pcode db₂ r hc
    obtain ⟨cart, lines, _, _, _, hdb⟩ := initialize_payment_inv user pl note onum pcode db db₂ r hc
    subst hdb
    exact List.mem_append_left _ ho

/-- Witness for C4 (amended): applied to the COMPLETED order of exTermDb;
its owner's cancel attempt fails with the transition-guard error. -/
theorem terminal_status_guarded_only_by_cancel_witness :
    cancel_order exUser 1 exTermDb = Except.error
      (Err.badRequest ("Cannot cancel order with status '" ++ exTermOrder.status ++ "'")) :=
  (terminal_status_guarded_only_by_cancel exTermDb exTermOrder (by decide) (by decide)
    (Or.inl rfl)).1 exUser (by decide)

/-- C10: the verify path is scoped to the calling user — when the order
named by the reference belongs to someone else, the user-filtered lookup
comes up empty, verify_payment raises NotFound, and (returning an error
before any mutation) leaves orders, stock and carts unchanged, revealing
no pickup code; the webhook path carries no user filter and confirms the
matching unpaid order regardless of who owns it. -/
theorem verify_scoped_to_owner
    (db : DB) (reference : String) (user : User) (ps : PSData) (o : Order)
    (hnum : OrderNumbersWF db) (ho : o ∈ db.orders)
    (hn : o.order_number = stripRef reference)
    (howner : o.user_id ≠ some user.uid)
    (hs : ps.status = "success") :
    verify_payment reference user ps db
      = Except.error (Err.notFound "Order" (stripRef reference)) ∧
    ∀ pl : WebhookPayload, pl.event = "charge.success" →
      pl.data.reference = reference →
      o.payment_status ≠ PaymentStatus.PAID →
      (handle_webhook pl db).orders
        = db.orders.map (fun x => if x.oid = o.oid then
            { o with payment_status := PaymentStatus.PAID,
                     status := OrderStatus.CONFIRMED } else x) := by
  have hnum' : (db.orders.map (fun x => x.order_number)).Nodup := hnum
  constructor
  · unfold verify_payment
    rw [if_neg (by simp [hs])]
    have hnone : verifyLookup db reference user = none := by
      unfold verifyLookup
      rw [List.find?_eq_none]
      intro x hx hpred
      simp only [Bool.and_eq_true, beq_iff_eq] at hpred
      have hxo : x = o :=
        map_key_nodup_inj (fun y => y.order_number) db.orders hnum' hx ho
          (by show x.order_number = o.order_number; rw [hpred.1, hn])
      exact howner (by rw [← hxo]; exact hpred.2)
    rw [hnone]
  · intro pl hev href hunpaid
    have hfound : webhookLookup db pl.data.reference = some o := by
      unfold webhookLookup
      refine find?_eq_some_of_unique _ _ o ho (by simp [hn, href]) ?_
      intro y hy hpy
      simp only [beq_iff_eq] at hpy
      exact map_key_nodup_inj (fun x => x.order_number) db.orders hnum' hy ho
        (by show y.order_number = o.order_number; rw [hpy, href, hn])
    unfold handle_webhook
    rw [if_pos (by simp [hev])]
    dsimp only
    rw [hfound]
    dsimp only
    rw [if_neg (by simp [hunpaid])]
    rw [confirmOrder_orders]

/-- Witness for C10: user 2 tries to verify user 1's order N2 — NotFound;
the webhook confirms it regardless. -/
theorem verify_scoped_to_owner_witness :
    verify_payment "JEMI-N2" exUser2 ⟨"success", 2500000⟩ exDb1
      = Except.error (Err.notFound "Order" (stripRef "JEMI-N2")) ∧
    ∀ pl : WebhookPayload, pl.event = "charge.success" →
      pl.data.reference = "JEMI-N2" →
      exOrderN2.payment_status ≠ PaymentStatus.PAID →
      (handle_webhook pl exDb1).orders
        = exDb1.orders.map (fun x => if x.oid = exOrderN2.oid then
            { exOrderN2 with payment_status := PaymentStatus.PAID,
                             status := OrderStatus.CONFIRMED } else x) :=
  verify_scoped_to_owner exDb1 "JEMI-N2" exUser2 ⟨"success", 2500000⟩ exOrderN2
    (by decide) (by decide) stripRef_JEMI_N2.symm (by decide) rfl

/-- The confirmation body re-establishes the availability-flag invariant
(it needs no precondition beyond the flags holding before). -/
theorem confirmOrder_flags (db : DB) (o : Order) (note : String) (cu : Option Nat)
    (hflag : FlagsWF db) : FlagsWF (confirmOrder db o note cu) := by
  intro p' hp'
  rw [confirmOrder_products, deductItems_eq_map] at hp'
  obtain ⟨p, hp, rfl⟩ := List.mem_map.mp hp'
  exact applyItemsD_flag db.products _ p (hflag p hp)

/-- C9: assuming every product satisfies in_stock == (stock_quantity > 0)
and stock_quantity ≥ 0 before the operation (and order items carry the
schema-validated quantities ≥ 1), every stock-mutating operation — the
create_order deduction, the reconciliation deduction via verify or
webhook, and the cancel_order restoration — re-establishes
in_stock == (stock_quantity > 0) for every product. -/
theorem stock_mutations_preserve_flag
    (db : DB) (hflag : FlagsWF db) (hnn : StockNonneg db) (hq : ItemQtysWF db) :
    (∀ (user : User) (pm : String) (pl note : Option String) (onum pcode : String)
        (db' : DB) (o : Order),
      create_order user pm pl note onum pcode db = Except.ok (db', o) → FlagsWF db') ∧
    (∀ (reference : String) (user : User) (ps : PSData) (db' : DB)
        (r : PaymentVerifyResponse),
      verify_payment reference user ps db = Except.ok (db', r) → FlagsWF db') ∧
    (∀ pl : WebhookPayload, FlagsWF (handle_webhook pl db)) ∧
    (∀ (user : User) (order_id : Nat) (db' : DB) (r : Order),
      cancel_order user order_id db = Except.ok (db', r) → FlagsWF db') := by
  refine ⟨?_, ?_, ?_, ?_⟩
  · intro user pm pl note onum pcode db' o hc
    obtain ⟨cart, lines, _, _, _, hdb⟩ := create_order_inv user pm pl note onum pcode db db' o hc
    subst hdb
    intro p' hp'
    simp only [deductLines_eq_map] at hp'
    obtain ⟨p, hp, rfl⟩ := List.mem_map.mp hp'
    exact applyLines_flag lines p (hflag p hp)
  · intro reference user ps db' r hv
    obtain ⟨hs, o, hl, hcase⟩ := verify_payment_inv reference user ps db db' r hv
    rcases hcase with ⟨_, rfl, _⟩ | ⟨_, _, rfl, _⟩
    · exact hflag
    · exact confirmOrder_flags db o _ (some user.uid) hflag
  · intro pl
    rcases handle_webhook_cases pl db with heq | ⟨o, _, _, _, heq⟩ <;> rw [heq]
    · exact hflag
    · exact confirmOrder_flags db o _ o.user_id hflag
  · intro user order_id db' r hc
    obtain ⟨o, hl, hst, hr, hdb⟩ := cancel_order_inv user order_id db db' r hc
    subst hdb
    intro p' hp'
    simp only [restoreItems_eq_map] at hp'
    obtain ⟨p, hp, rfl⟩ := List.mem_map.mp hp'
    have hq' : ∀ it ∈ orderItemsOf db o.oid, 1 ≤ it.quantity := by
      intro it hit
      exact hq it (List.mem_of_mem_filter hit)
    exact applyItemsR_flag db.products _ hq' p (hflag p hp) (hnn p hp)

/-- Witness for C9 at the sample state (flags consistent, stock 10 ≥ 0):
the four preservation statements, instantiated. -/
theorem stock_mutations_preserve_flag_witness :
    (∀ (user : User) (pm : String) (pl note : Option String) (onum pcode : String)
        (db' : DB) (o : Order),
      create_order user pm pl note onum pcode exDb0 = Except.ok (db', o) → FlagsWF db') ∧
    (∀ (reference : String) (user : User) (ps : PSData) (db' : DB)
        (r : PaymentVerifyResponse),
      verify_payment reference user ps exDb0 = Except.ok (db', r) → FlagsWF db') ∧
    (∀ pl : WebhookPayload, FlagsWF (handle_webhook pl exDb0)) ∧
    (∀ (user : User) (order_id : Nat) (db' : DB) (r : Order),
      cancel_order user order_id exDb0 = Except.ok (db', r) → FlagsWF db') :=
  stock_mutations_preserve_flag exDb0 (by decide) (by decide) (by decide)

/-- Lookups by fields the confirmation does not change (order_number,
user_id) see through the confirmation's order update. -/
theorem find?_confirm_update (db : DB) (o : Order) (hoid : OidsWF db)
    (ho : o ∈ db.orders) (p : Order → Bool)
    (hp : p { o with payment_status := PaymentStatus.PAID,
                     status := OrderStatus.CONFIRMED } = p o) :
    (db.orders.map (fun x => if x.oid = o.oid then
        { o with payment_status := PaymentStatus.PAID,
                 status := OrderStatus.CONFIRMED } else x)).find? p
      = (db.orders.find? p).map (fun x => if x.oid = o.oid then
        { o with payment_status := PaymentStatus.PAID,
                 status := OrderStatus.CONFIRMED } else x) := by
  apply find?_map_comm
  intro x hx
  by_cases hxo : x.oid = o.oid
  · have hoid' : (db.orders.map (fun y => y.oid)).Nodup := hoid
    have hxe : x = o := map_key_nodup_inj (fun y => y.oid) db.orders hoid' hx ho hxo
    subst hxe
    rw [if_pos hxo, hp]
  · rw [if_neg hxo]

/-- C1: payment reconciliation is idempotent.  After any successful verify
call, running the same verify call again returns the same state and the
same success payload — in particular, for an order already PAID the call
reads the current state without re-deducting stock or appending a timeline
entry — and delivering a charge.success webhook for the same reference
leaves the state exactly as it is: one stock decrement and one timeline
entry in total. -/
theorem verify_reconciliation_idempotent
    (reference : String) (user : User) (ps : PSData) (pl : WebhookPayload)
    (db db' : DB) (r : PaymentVerifyResponse)
    (hnum : OrderNumbersWF db) (hoid : OidsWF db)
    (h1 : verify_payment reference user ps db = Except.ok (db', r))
    (hev : pl.event = "charge.success") (href : pl.data.reference = reference) :
    verify_payment reference user ps db' = Except.ok (db', r) ∧
    handle_webhook pl db' = db' := by
  obtain ⟨hs, o, hl, hcase⟩ := verify_payment_inv reference user ps db db' r h1
  have hl' : db.orders.find? (fun x =>
      x.order_number == stripRef reference && x.user_id == some user.uid) = some o := hl
  have hpred := List.find?_some hl'
  simp only [Bool.and_eq_true, beq_iff_eq] at hpred
  have ho : o ∈ db.orders := List.mem_of_find?_eq_some hl'
  have hnum' : (db.orders.map (fun x => x.order_number)).Nodup := hnum
  rcases hcase with ⟨hpaid, hdbeq, hreq⟩ | ⟨hunpaid, hamt, hdbeq, hreq⟩
  · rw [hdbeq, hreq] at h1 ⊢
    constructor
    · exact h1
    · unfold handle_webhook
      rw [if_pos (by simp [hev])]
      dsimp only
      have hfound : webhookLookup db pl.data.reference = some o := by
        unfold webhookLookup
        refine find?_eq_some_of_unique _ _ o ho (by simp [hpred.1, href]) ?_
        intro y hy hpy
        simp only [beq_iff_eq] at hpy
        exact map_key_nodup_inj (fun x => x.order_number) db.orders hnum' hy ho
          (by show y.order_number = o.order_number; rw [hpy, href, hpred.1])
      rw [hfound]
      dsimp only
      rw [if_pos (by simp [hpaid])]
  · have hverlook : verifyLookup db' reference user
        = some { o with payment_status := PaymentStatus.PAID,
                        status := OrderStatus.CONFIRMED } := by
      unfold verifyLookup
      rw [hdbeq, confirmOrder_orders db o _ (some user.uid),
        find?_confirm_update db o hoid ho
          (fun x => x.order_number == stripRef reference && x.user_id == some user.uid) rfl,
        hl']
      simp
    have hweblook : webhookLookup db' pl.data.reference
        = some { o with payment_status := PaymentStatus.PAID,
                        status := OrderStatus.CONFIRMED } := by
      unfold webhookLookup
      rw [hdbeq, confirmOrder_orders db o _ (some user.uid), href,
        find?_confirm_update db o hoid ho
          (fun x => x.order_number == stripRef reference) rfl]
      have hfq : db.orders.find? (fun x => x.order_number == stripRef reference) = some o := by
        refine find?_eq_some_of_unique _ _ o ho (by simp [hpred.1]) ?_
        intro y hy hpy
        simp only [beq_iff_eq] at hpy
        exact map_key_nodup_inj (fun x => x.order_number) db.orders hnum' hy ho
          (by show y.order_number = o.order_number; rw [hpy, hpred.1])
      rw [hfq]
      simp
    constructor
    · unfold verify_payment
      rw [if_neg (by simp [hs]), hverlook]
      dsimp only
      rw [if_pos (by simp), hreq]
    · unfold handle_webhook
      rw [if_pos (by simp [hev])]
      dsimp only
      rw [hweblook]
      dsimp only
      rw [if_pos (by simp)]

/-- exDb1 after the verify call confirmed order N2. -/
def exVerifiedDb : DB :=
  confirmOrder exDb1 exOrderN2
    "Payment confirmed via Paystack (ref: JEMI-N2)" (some 1)

/-- The success payload of that confirmation. -/
def exVerifiedResp : PaymentVerifyResponse :=
  mkVerifyResponse { exOrderN2 with payment_status := PaymentStatus.PAID,
                                    status := OrderStatus.CONFIRMED }

/-- Evaluation of the first verify call on the sample state. -/
theorem verify_payment_exDb1 :
    verify_payment "JEMI-N2" exUser ⟨"success", 2500000⟩ exDb1
      = Except.ok (exVerifiedDb, exVerifiedResp) := by
  unfold verify_payment
  rw [if_neg (by decide), verifyLookup_exDb1]
  dsimp only
  rw [if_neg (by decide), if_neg (by decide)]
  rfl

/-- Witness for C1: after confirming order N2, a second identical verify
call returns the same state and payload, and a webhook for the same
reference is a no-op. -/
theorem verify_reconciliation_idempotent_witness :
    verify_payment "JEMI-N2" exUser ⟨"success", 2500000⟩ exVerifiedDb
      = Except.ok (exVerifiedDb, exVerifiedResp) ∧
    handle_webhook ⟨"charge.success", ⟨"JEMI-N2", 2500000, "success"⟩⟩ exVerifiedDb
      = exVerifiedDb :=
  verify_reconciliation_idempotent "JEMI-N2" exUser ⟨"success", 2500000⟩
    ⟨"charge.success", ⟨"JEMI-N2", 2500000, "success"⟩⟩ exDb1 exVerifiedDb exVerifiedResp
    (by decide) (by decide) verify_payment_exDb1 rfl rfl

/-- The money identities of spec §3 for one database state: every order's
total is subtotal + delivery_fee, its subtotal is the sum of its items'
line totals, and every line total is unit price × quantity. -/
def TotalsOK (db : DB) : Prop :=
  ∀ o ∈ db.orders,
    o.total = o.subtotal + o.delivery_fee ∧
    o.subtotal = ((orderItemsOf db o.oid).map (fun it => it.total_price)).sum ∧
    ∀ it ∈ orderItemsOf db o.oid, it.total_price = it.unit_price * (it.quantity : Rat)

instance (db : DB) : Decidable (TotalsOK db) := by unfold TotalsOK; infer_instance

/-- One transition of the system: any of the modelled service operations,
taken when it succeeds (a raised exception rolls back, leaving the state
unchanged, so error outcomes are not transitions). -/
inductive Step : DB → DB → Prop where
  | create (db : DB) (user : User) (pm : String) (pl note : Option String)
      (onum pcode : String) (db' : DB) (o : Order) :
      create_order user pm pl note onum pcode db = Except.ok (db', o) → Step db db'
  | gateway (db : DB) (user : User) (pl note : Option String)
      (onum pcode : String) (db' : DB) (o : Order) :
      initialize_payment user pl note onum pcode db = Except.ok (db', o) → Step db db'
  | verify (db : DB) (reference : String) (user : User) (ps : PSData)
      (db' : DB) (r : PaymentVerifyResponse) :
      verify_payment reference user ps db = Except.ok (db', r) → Step db db'
  | webhook (db : DB) (pl : WebhookPayload) : Step db (handle_webhook pl db)
  | cancel (db : DB) (user : User) (order_id : Nat) (db' : DB) (r : Order) :
      cancel_order user order_id db = Except.ok (db', r) → Step db db'
  | advance (db : DB) (order_id : Nat) (new_status : String) (note : Option String)
      (db' : DB) (r : Order) :
      update_order_status order_id new_status note db = Except.ok (db', r) → Step db db'

/-- Items of the freshly inserted order, and of the old orders, after an
append of freshly built items. -/
theorem orderItemsOf_insert (db : DB) (lines : List (Product × Nat))
    (items' : List OrderItem)
    (heq : items' = db.order_items ++ buildOrderItems db.next_order_id lines)
    (hids : ∀ it ∈ db.order_items, it.order_id < db.next_order_id) :
    items'.filter (fun it => it.order_id == db.next_order_id)
        = buildOrderItems db.next_order_id lines ∧
    ∀ oid : Nat, oid ≠ db.next_order_id →
      items'.filter (fun it => it.order_id == oid)
        = db.order_items.filter (fun it => it.order_id == oid) := by
  subst heq
  constructor
  · rw [List.filter_append]
    have h1 : db.order_items.filter (fun it => it.order_id == db.next_order_id) = [] := by
      rw [List.filter_eq_nil_iff]
      intro it hit
      simp [Nat.ne_of_lt (hids it hit)]
    have h2 : (buildOrderItems db.next_order_id lines).filter
        (fun it => it.order_id == db.next_order_id) = buildOrderItems db.next_order_id lines := by
      rw [List.filter_eq_self]
      intro it hit
      simp [buildOrderItems_order_id db.next_order_id lines it hit]
    rw [h1, h2, List.nil_append]
  · intro oid hne
    rw [List.filter_append]
    have h2 : (buildOrderItems db.next_order_id lines).filter
        (fun it => it.order_id == oid) = [] := by
      rw [List.filter_eq_nil_iff]
      intro it hit
      rw [buildOrderItems_order_id db.next_order_id lines it hit]
      simp only [beq_iff_eq]
      exact fun h => hne h.symm
    rw [h2, List.append_nil]

/-- The money identities only read the orders and order_items tables;
they survive any update that maps every order to one whose money fields
and oid coincide with some order already in the table. -/
theorem TotalsOK_map (db1 db2 : DB) (f : Order → Order)
    (ho : db2.orders = db1.orders.map f)
    (hi : db2.order_items = db1.order_items)
    (hm : ∀ x ∈ db1.orders, ∃ z ∈ db1.orders,
      (f x).total = z.total ∧ (f x).subtotal = z.subtotal ∧
      (f x).delivery_fee = z.delivery_fee ∧ (f x).oid = z.oid)
    (htot : TotalsOK db1) : TotalsOK db2 := by
  intro o' ho'
  rw [ho] at ho'
  obtain ⟨x, hx, rfl⟩ := List.mem_map.mp ho'
  obtain ⟨z, hz, hm1, hm2, hm3, hm4⟩ := hm x hx
  obtain ⟨h1, h2, h3⟩ := htot z hz
  have hitems : orderItemsOf db2 (f x).oid = orderItemsOf db1 z.oid := by
    unfold orderItemsOf
    rw [hi, hm4]
  refine ⟨?_, ?_, ?_⟩
  · rw [hm1, hm2, hm3, h1]
  · rw [hitems, hm2, h2]
  · rw [hitems]
    exact h3

/-- Same frame argument for the id discipline. -/
theorem IdsWF_map (db1 db2 : DB) (f : Order → Order)
    (ho : db2.orders = db1.orders.map f)
    (hi : db2.order_items = db1.order_items)
    (hn : db2.next_order_id = db1.next_order_id)
    (hoid : ∀ o, (f o).oid = o.oid)
    (hids : IdsWF db1) : IdsWF db2 := by
  constructor
  · intro o' ho'
    rw [ho] at ho'
    obtain ⟨o, ho₁, rfl⟩ := List.mem_map.mp ho'
    rw [hoid, hn]
    exact hids.1 o ho₁
  · intro it hit
    rw [hi] at hit
    rw [hn]
    exact hids.2 it hit

/-- The pointwise facts needed for the confirmation/cancellation/advance
order updates: the oid is untouched and money fields are copied from an
order already in the table. -/
theorem status_update_oid (o o' : Order) (hoo : o'.oid = o.oid) (x : Order) :
    (if x.oid = o.oid then o' else x).oid = x.oid := by
  by_cases hx : x.oid = o.oid
  · rw [if_pos hx, hoo, hx]
  · rw [if_neg hx]

theorem status_update_money (db : DB) (o o' : Order) (ho : o ∈ db.orders)
    (h1 : o'.total = o.total) (h2 : o'.subtotal = o.subtotal)
    (h3 : o'.delivery_fee = o.delivery_fee) (h4 : o'.oid = o.oid) :
    ∀ x ∈ db.orders, ∃ z ∈ db.orders,
      ((if x.oid = o.oid then o' else x)).total = z.total ∧
      ((if x.oid = o.oid then o' else x)).subtotal = z.subtotal ∧
      ((if x.oid = o.oid then o' else x)).delivery_fee = z.delivery_fee ∧
      ((if x.oid = o.oid then o' else x)).oid = z.oid := by
  intro x hx
  by_cases hxo : x.oid = o.oid
  · exact ⟨o, ho, by rw [if_pos hxo]; exact ⟨h1, h2, h3, h4⟩⟩
  · exact ⟨x, hx, by rw [if_neg hxo]; exact ⟨rfl, rfl, rfl, rfl⟩⟩

/-- Inserting an order built from validated lines preserves the two
invariants (both creation paths have this shape). -/
theorem totals_after_insert (db db2 : DB) (o : Order) (lines : List (Product × Nat))
    (hids : IdsWF db) (htot : TotalsOK db)
    (horders : db2.orders = db.orders ++ [o])
    (hitems : db2.order_items = db.order_items ++ buildOrderItems db.next_order_id lines)
    (hnext : db2.next_order_id = db.next_order_id + 1)
    (hoo : o.oid = db.next_order_id)
    (hsub : o.subtotal = cartSubtotal lines) (hfee : o.delivery_fee = 0)
    (htotal : o.total = cartSubtotal lines) :
    TotalsOK db2 ∧ IdsWF db2 := by
  obtain ⟨hnew, hold⟩ := orderItemsOf_insert db lines _ rfl hids.2
  constructor
  · intro o' ho'
    rw [horders] at ho'
    rcases List.mem_append.mp ho' with hmem | hmem
    · obtain ⟨h1, h2, h3⟩ := htot o' hmem
      have hne : o'.oid ≠ db.next_order_id := Nat.ne_of_lt (hids.1 o' hmem)
      have hit2 : orderItemsOf db2 o'.oid = orderItemsOf db o'.oid := by
        unfold orderItemsOf
        rw [hitems]
        exact hold o'.oid hne
      rw [hit2]
      exact ⟨h1, h2, h3⟩
    · have heq : o' = o := by simpa using hmem
      subst heq
      have hit2 : orderItemsOf db2 o'.oid = buildOrderItems db.next_order_id lines := by
        unfold orderItemsOf
        rw [hitems, hoo]
        exact hnew
      rw [hit2]
      refine ⟨by rw [htotal, hsub, hfee, add_zero], ?_, ?_⟩
      · rw [hsub, cartSubtotal_eq_sum db.next_order_id lines]
      · exact buildOrderItems_total db.next_order_id lines
  · constructor
    · intro o' ho'
      rw [horders] at ho'
      rcases List.mem_append.mp ho' with hmem | hmem
      · rw [hnext]
        exact Nat.lt_succ_of_lt (hids.1 o' hmem)
      · have heq : o' = o := by simpa using hmem
        subst heq
        rw [hnext, hoo]
        exact Nat.lt_succ_self _
    · intro it hit
      rw [hitems] at hit
      rw [hnext]
      rcases List.mem_append.mp hit with hmem | hmem
      · exact Nat.lt_succ_of_lt (hids.2 it hmem)
      · rw [buildOrderItems_order_id db.next_order_id lines it hmem]
        exact Nat.lt_succ_self _

/-- Every transition preserves the id discipline and the money
identities. -/
theorem step_totals (db db' : DB) (hstep : Step db db')
    (hids : IdsWF db) (htot : TotalsOK db) : IdsWF db' ∧ TotalsOK db' := by
  cases hstep with
  | create user pm pl note onum pcode db' o h =>
    obtain ⟨cart, lines, hc, hv, horder, hdb⟩ := create_order_inv user pm pl note onum pcode db db' o h
    obtain ⟨h1, h2⟩ := totals_after_insert db db' o lines hids htot
      (by rw [hdb]) (by rw [hdb]) (by rw [hdb])
      (by rw [horder]) (by rw [horder]) (by rw [horder]) (by rw [horder])
    exact ⟨h2, h1⟩
  | gateway user pl note onum pcode db' o h =>
    obtain ⟨cart, lines, hc, hv, horder, hdb⟩ := initialize_payment_inv user pl note onum pcode db db' o h
    obtain ⟨h1, h2⟩ := totals_after_insert db db' o lines hids htot
      (by rw [hdb]) (by rw [hdb]) (by rw [hdb])
      (by rw [horder]) (by rw [horder]) (by rw [horder]) (by rw [horder])
    exact ⟨h2, h1⟩
  | verify reference user ps db' r h =>
    obtain ⟨hs, o, hl, hcase⟩ := verify_payment_inv reference user ps db db' r h
    have ho : o ∈ db.orders := List.mem_of_find?_eq_some hl
    rcases hcase with ⟨_, rfl, _⟩ | ⟨_, _, hdbeq, _⟩
    · exact ⟨hids, htot⟩
    · subst hdbeq
      constructor
      · exact IdsWF_map db _ _ (confirmOrder_orders db o _ (some user.uid))
          (confirmOrder_order_items db o _ (some user.uid))
          (confirmOrder_next db o _ (some user.uid))
          (status_update_oid o _ rfl) hids
      · exact TotalsOK_map db _ _ (confirmOrder_orders db o _ (some user.uid))
          (confirmOrder_order_items db o _ (some user.uid))
          (status_update_money db o _ ho rfl rfl rfl rfl) htot
  | webhook pl =>
    rcases handle_webhook_cases pl db with heq | ⟨o, hev, hl, hunpaid, heq⟩ <;> rw [heq]
    · exact ⟨hids, htot⟩
    · have ho : o ∈ db.orders := List.mem_of_find?_eq_some hl
      constructor
      · exact IdsWF_map db _ _ (confirmOrder_orders db o _ o.user_id)
          (confirmOrder_order_items db o _ o.user_id)
          (confirmOrder_next db o _ o.user_id)
          (status_update_oid o _ rfl) hids
      · exact TotalsOK_map db _ _ (confirmOrder_orders db o _ o.user_id)
          (confirmOrder_order_items db o _ o.user_id)
          (status_update_money db o _ ho rfl rfl rfl rfl) htot
  | cancel user order_id db' r h =>
    obtain ⟨o, hl, hst, hr, hdb⟩ := cancel_order_inv user order_id db db' r h
    have ho : o ∈ db.orders := List.mem_of_find?_eq_some hl
    subst hdb
    constructor
    · exact IdsWF_map db _ _ rfl rfl rfl (status_update_oid o _ rfl) hids
    · exact TotalsOK_map db _ _ rfl rfl
        (status_update_money db o _ ho rfl rfl rfl rfl) htot
  | advance order_id new_status note db' r h =>
    obtain ⟨o, hl, hr, hdb⟩ := update_order_status_inv order_id new_status note db db' r h
    have ho : o ∈ db.orders := List.mem_of_find?_eq_some hl
    subst hdb
    constructor
    · exact IdsWF_map db _ _ rfl rfl rfl (status_update_oid o _ rfl) hids
    · exact TotalsOK_map db _ _ rfl rfl
        (status_update_money db o _ ho rfl rfl rfl rfl) htot

/-- C7: for every order produced by either creation path, and in every
state reachable from there by any sequence of the modelled operations,
order.total == order.subtotal + order.delivery_fee, order.subtotal equals
the sum of its order lines' total_price, and each line's total_price
equals unit_price × quantity — stated as: the money identities, together
with the autoincrement id discipline, are invariant under reachability. -/
theorem order_totals_invariant (db db' : DB)
    (hreach : Relation.ReflTransGen Step db db')
    (hids : IdsWF db) (htot : TotalsOK db) :
    TotalsOK db' ∧ IdsWF db' := by
  induction hreach with
  | refl => exact ⟨htot, hids⟩
  | tail hsteps hstep ih =>
    obtain ⟨htot', hids'⟩ := ih
    obtain ⟨h1, h2⟩ := step_totals _ _ hstep hids' htot'
    exact ⟨h2, h1⟩

/-- Evaluation of the gateway initialization on the sample state. -/
theorem initialize_payment_exDb0 :
    initialize_payment exUser none none "N2" "222222" exDb0
      = Except.ok (exDb1, exOrderN2) := by decide

/-- Witness for C7: after the gateway creation step from exDb0, the money
identities hold in the new state exDb1. -/
theorem order_totals_invariant_witness : TotalsOK exDb1 ∧ IdsWF exDb1 :=
  order_totals_invariant exDb0 exDb1
    (Relation.ReflTransGen.single
      (Step.gateway exDb0 exUser none none "N2" "222222" exDb1 exOrderN2
        initialize_payment_exDb0))
    (by decide) (by decide)

/-- Whether a product id resolves is untouched by pid-preserving row
updates over the whole table. -/
theorem find?_pid_isSome_map (ps : List Product) (g : Product → Product)
    (hg : ∀ p, (g p).pid = p.pid) (pid : Nat) :
    ((ps.map g).find? (fun q => q.pid == pid)).isSome
      = (ps.find? (fun q => q.pid == pid)).isSome := by
  rw [find?_map_comm ps g _ (fun x _ => by simp [hg])]
  exact Option.isSome_map'

/-- C8: stock conservation round-trip.  Whenever a direct create_order
succeeds, cancelling the created order immediately afterwards succeeds and
restores every product's stock_quantity to exactly its value before the
creation (every order line still references its product, as none was
deleted in between). -/
theorem create_cancel_stock_roundtrip
    (db : DB) (user : User) (pm : String) (pl note : Option String)
    (onum pcode : String) (db₁ : DB) (o : Order)
    (hids : IdsWF db)
    (hc : create_order user pm pl note onum pcode db = Except.ok (db₁, o)) :
    ∃ db₂ r, cancel_order user o.oid db₁ = Except.ok (db₂, r) ∧
      db₂.products.map (fun p => (p.pid, p.stock_quantity))
        = db.products.map (fun p => (p.pid, p.stock_quantity)) := by
  obtain ⟨cart, lines, hcart, hv, horder, hdb⟩ :=
    create_order_inv user pm pl note onum pcode db db₁ o hc
  have hooid : o.oid = db.next_order_id := by rw [horder]
  have houser : o.user_id = some user.uid := by rw [horder]
  have hostatus : o.status = OrderStatus.PENDING := by rw [horder]
  have hlook : ownedOrderLookup db₁ user o.oid = some o := by
    unfold ownedOrderLookup
    rw [hdb]
    show (db.orders ++ [o]).find?
      (fun x => x.oid == o.oid && x.user_id == some user.uid) = some o
    rw [find?_append_left_none _ _ _ (fun x hx => by
      have : x.oid ≠ o.oid := by
        rw [hooid]
        exact Nat.ne_of_lt (hids.1 x hx)
      simp [this])]
    simp [houser]
  rcases hres : cancel_order user o.oid db₁ with e | ⟨db₂, r⟩
  · exfalso
    unfold cancel_order at hres
    rw [hlook] at hres
    dsimp only at hres
    rw [if_neg (by simp [hostatus])] at hres
    cases hres
  · refine ⟨db₂, r, rfl, ?_⟩
    obtain ⟨o₀, hl₀, hst₀, hr₀, hdb₂⟩ := cancel_order_inv user o.oid db₁ db₂ r hres
    have ho₀ : o₀ = o := by
      rw [hlook] at hl₀
      exact (Option.some.inj hl₀).symm
    subst ho₀
    have hitems : orderItemsOf db₁ o₀.oid = buildOrderItems db.next_order_id lines := by
      unfold orderItemsOf
      rw [hdb]
      show (db.order_items ++ buildOrderItems db.next_order_id lines).filter
        (fun it => it.order_id == o₀.oid) = _
      simp only [hooid]
      exact (orderItemsOf_insert db lines _ rfl hids.2).1
    have hprod1 : db₁.products = db.products.map (applyLines lines) := by
      rw [hdb]
      show deductLines db.products lines = _
      exact deductLines_eq_map lines db.products
    have hprod2 : db₂.products
        = restoreItems db₁.products (buildOrderItems db.next_order_id lines) := by
      rw [hdb₂]
      show restoreItems db₁.products (orderItemsOf db₁ o₀.oid) = _
      rw [hitems]
    rw [hprod2, restoreItems_eq_map, hprod1, List.map_map, List.map_map]
    refine List.map_congr_left (fun p hp => ?_)
    have hgp : (applyLines lines p).pid = p.pid := applyLines_pid lines p
    have hmem : ((db.products.map (applyLines lines)).find?
        (fun q => q.pid == (applyLines lines p).pid)).isSome = true := by
      rw [hgp, find?_pid_isSome_map db.products (applyLines lines) (applyLines_pid lines) p.pid]
      exact List.find?_isSome.mpr ⟨p, hp, by simp⟩
    have hstock := applyItemsR_stock (db.products.map (applyLines lines))
      (buildOrderItems db.next_order_id lines) (applyLines lines p) hmem
    have hpid2 : (applyItemsR (db.products.map (applyLines lines))
        (buildOrderItems db.next_order_id lines) (applyLines lines p)).pid = p.pid := by
      rw [applyItemsR_pid, hgp]
    show (_, _) = (_, _)
    refine Prod.ext ?_ ?_
    · exact hpid2
    · show (applyItemsR _ _ (applyLines lines p)).stock_quantity = p.stock_quantity
      rw [hstock, hgp, qtySumI_buildOrderItems, applyLines_stock]
      omega

/-- The order created by the direct (pay-on-pickup) path from exDb0. -/
def exOrderN1 : Order :=
  { oid := 1, user_id := some 1, order_number := "N1", subtotal := 25000,
    delivery_fee := 0, total := 25000, status := OrderStatus.PENDING,
    payment_status := PaymentStatus.PENDING, payment_method := some "cash_on_pickup",
    pickup_location := none, pickup_code := some "111111", customer_name := "U1",
    customer_phone := "p1", customer_email := some "e1", customer_note := none }

/-- exDb0 after the direct creation of order N1 (stock 8, cart empty). -/
def exCreatedDb : DB :=
  ((create_order exUser "cash_on_pickup" none none "N1" "111111" exDb0).toOption.map
    Prod.fst).getD exDb0

/-- Witness for C8: creating and then cancelling order N1 brings the ten
units of stock back. -/
theorem create_cancel_stock_roundtrip_witness :
    ∃ db₂ r, cancel_order exUser exOrderN1.oid exCreatedDb = Except.ok (db₂, r) ∧
      db₂.products.map (fun p => (p.pid, p.stock_quantity))
        = exDb0.products.map (fun p => (p.pid, p.stock_quantity)) :=
  create_cancel_stock_roundtrip exDb0 exUser "cash_on_pickup" none none "N1" "111111"
    exCreatedDb exOrderN1 (by decide) (by decide)

/-- The order created by the gateway initialization of exDbX0 (five units
at 12500 each, total 62500). -/
def exOrderNX : Order :=
  { oid := 1, user_id := some 1, order_number := "NX", subtotal := 62500,
    delivery_fee := 0, total := 62500, status := OrderStatus.PENDING,
    payment_status := PaymentStatus.PENDING, payment_method := some "paystack",
    pickup_location := none, pickup_code := some "333333", customer_name := "U1",
    customer_phone := "p1", customer_email := some "e1", customer_note := none }

theorem stripRef_JEMI_NX : stripRef "JEMI-NX" = "NX" := by
  with_unfolding_all decide

theorem verifyLookup_exDbX2 : verifyLookup exDbX2 "JEMI-NX" exUser = some exOrderNX := by
  unfold verifyLookup
  simp only [stripRef_JEMI_NX]
  decide

/-- Evaluation of the verify call that overdraws the stock. -/
theorem verify_payment_exDbX2 :
    verify_payment "JEMI-NX" exUser ⟨"success", 6250000⟩ exDbX2
      = Except.ok (confirmOrder exDbX2 exOrderNX
          "Payment confirmed via Paystack (ref: JEMI-NX)" (some 1),
        mkVerifyResponse { exOrderNX with payment_status := PaymentStatus.PAID,
                                          status := OrderStatus.CONFIRMED }) := by
  unfold verify_payment
  rw [if_neg (by decide), verifyLookup_exDbX2]
  dsimp only
  rw [if_neg (by decide), if_neg (by decide)]
  rfl

/-- Counterexample for C3: starting from five units of stock, initialize a
gateway payment for five units (no deduction), sell the five units to a
second customer pay-on-pickup (stock 0), then let the gateway verify call
confirm the first order with the exactly matching amount — the unchecked
deduction drives stock_quantity to -5. -/
theorem confirmation_drives_stock_negative :
    StockNonneg exDbX0 ∧
    exDbX2.products.map (fun p => p.stock_quantity) = [0] ∧
    exDbX3 = confirmOrder exDbX2 exOrderNX
      "Payment confirmed via Paystack (ref: JEMI-NX)" (some 1) ∧
    exDbX3.products.map (fun p => p.stock_quantity) = [-5] ∧
    ¬ StockNonneg exDbX3 := by
  have h3 : exDbX3 = confirmOrder exDbX2 exOrderNX
      "Payment confirmed via Paystack (ref: JEMI-NX)" (some 1) := by
    show ((verify_payment "JEMI-NX" exUser ⟨"success", 6250000⟩ exDbX2).toOption.map
      Prod.fst).getD exDbX2 = _
    rw [verify_payment_exDbX2]
    rfl
  refine ⟨by decide, by decide, h3, ?_, ?_⟩
  · rw [h3, confirmOrder_products]
    decide
  · rw [h3]
    intro hnn
    have h5 : (confirmOrder exDbX2 exOrderNX
        "Payment confirmed via Paystack (ref: JEMI-NX)" (some 1)).products
        = deductItems exDbX2.products (orderItemsOf exDbX2 exOrderNX.oid) := by
      rw [confirmOrder_products]
    have h6 := hnn
    rw [StockNonneg, h5] at h6
    revert h6
    decide

/-- The stock of every product covers the total quantity the given
order's items demand of it — the proviso under which a confirmation's
unchecked deduction cannot overdraw. -/
def orderCovered (db : DB) (oid : Nat) : Prop :=
  ∀ p ∈ db.products, (qtySumI (orderItemsOf db oid) p.pid : Int) ≤ p.stock_quantity

/-- One transition of the system in which every payment confirmation is
taken only when stock still covers the order being confirmed (the other
operations carry their own guards in the code). -/
inductive SafeStep : DB → DB → Prop where
  | create (db : DB) (user : User) (pm : String) (pl note : Option String)
      (onum pcode : String) (db' : DB) (o : Order) :
      create_order user pm pl note onum pcode db = Except.ok (db', o) → SafeStep db db'
  | gateway (db : DB) (user : User) (pl note : Option String)
      (onum pcode : String) (db' : DB) (o : Order) :
      initialize_payment user pl note onum pcode db = Except.ok (db', o) → SafeStep db db'
  | verify (db : DB) (reference : String) (user : User) (ps : PSData)
      (db' : DB) (r : PaymentVerifyResponse) :
      verify_payment reference user ps db = Except.ok (db', r) →
      (∀ o, verifyLookup db reference user = some o → orderCovered db o.oid) →
      SafeStep db db'
  | webhook (db : DB) (pl : WebhookPayload) :
      (∀ o, webhookLookup db pl.data.reference = some o → orderCovered db o.oid) →
      SafeStep db (handle_webhook pl db)
  | cancel (db : DB) (user : User) (order_id : Nat) (db' : DB) (r : Order) :
      cancel_order user order_id db = Except.ok (db', r) → SafeStep db db'
  | advance (db : DB) (order_id : Nat) (new_status : String) (note : Option String)
      (db' : DB) (r : Order) :
      update_order_status order_id new_status note db = Except.ok (db', r) → SafeStep db db'

/-- Distinct product ids survive any pid-preserving rewrite of the
table. -/
theorem ProductsWF_map (db1 db2 : DB) (g : Product → Product)
    (hp : db2.products = db1.products.map g) (hg : ∀ p, (g p).pid = p.pid)
    (h : ProductsWF db1) : ProductsWF db2 := by
  have h' : (db1.products.map (fun p => p.pid)).Nodup := h
  show (db2.products.map (fun p => p.pid)).Nodup
  rw [hp, List.map_map]
  have heq : db1.products.map ((fun p => p.pid) ∘ g) = db1.products.map (fun p => p.pid) :=
    List.map_congr_left (fun p _ => hg p)
  rw [heq]
  exact h'

/-- Clearing one cart's lines keeps every cart's lines duplicate-free. -/
theorem CartsWF_clearCartRow (cs : List Cart) (cid : Nat)
    (h : ∀ c ∈ cs, (c.items.map (fun l => l.product_id)).Nodup) :
    ∀ c ∈ clearCartRow cs cid, (c.items.map (fun l => l.product_id)).Nodup := by
  intro c hc
  unfold clearCartRow at hc
  obtain ⟨c₀, hc₀, rfl⟩ := List.mem_map.mp hc
  by_cases hcid : c₀.cid = cid
  · rw [if_pos hcid]
    simp
  · rw [if_neg hcid]
    exact h c₀ hc₀

/-- A covered confirmation keeps stock nonnegative. -/
theorem confirm_stock_nonneg (db : DB) (o : Order) (note : String) (cu : Option Nat)
    (hnn : StockNonneg db) (hcov : orderCovered db o.oid) :
    StockNonneg (confirmOrder db o note cu) := by
  intro p' hp'
  rw [confirmOrder_products, deductItems_eq_map] at hp'
  obtain ⟨p, hp, rfl⟩ := List.mem_map.mp hp'
  have hmem : (db.products.find? (fun q => q.pid == p.pid)).isSome = true :=
    List.find?_isSome.mpr ⟨p, hp, by simp⟩
  rw [applyItemsD_stock db.products _ p hmem]
  have h1 := hcov p hp
  have h2 := hnn p hp
  omega

/-- The cancellation restoration keeps stock nonnegative. -/
theorem restore_stock_nonneg (db : DB) (oid : Nat) (ps' : List Product)
    (hps : ps' = restoreItems db.products (orderItemsOf db oid))
    (hnn : StockNonneg db) : ∀ p' ∈ ps', 0 ≤ p'.stock_quantity := by
  subst hps
  intro p' hp'
  rw [restoreItems_eq_map] at hp'
  obtain ⟨p, hp, rfl⟩ := List.mem_map.mp hp'
  have hmem : (db.products.find? (fun q => q.pid == p.pid)).isSome = true :=
    List.find?_isSome.mpr ⟨p, hp, by simp⟩
  rw [applyItemsR_stock db.products _ p hmem]
  have h2 := hnn p hp
  omega

/-- A validated creation keeps stock nonnegative: every line was checked
against the current stock, and a well-formed cart names each product at
most once, so the deduction loop subtracts at most the checked amount. -/
theorem create_stock_nonneg (db db' : DB) (user : User) (pm : String)
    (pl note : Option String) (onum pcode : String) (o : Order)
    (hP : ProductsWF db) (hC : CartsWF db) (hnn : StockNonneg db)
    (hc : create_order user pm pl note onum pcode db = Except.ok (db', o)) :
    StockNonneg db' := by
  obtain ⟨cart, lines, hcart, hv, horder, hdb⟩ :=
    create_order_inv user pm pl note onum pcode db db' o hc
  subst hdb
  intro p' hp'
  simp only [deductLines_eq_map] at hp'
  obtain ⟨p, hp, rfl⟩ := List.mem_map.mp hp'
  show 0 ≤ (applyLines lines p).stock_quantity
  rw [applyLines_stock]
  by_cases hin : p.pid ∈ lines.map (fun pq => pq.1.pid)
  · obtain ⟨pq, hpq, hpqpid⟩ := List.mem_map.mp hin
    have hcmem : cart ∈ db.carts := List.mem_of_find?_eq_some hcart
    have hnodup : (lines.map (fun pq => pq.1.pid)).Nodup := by
      rw [(validateCart_pids db cart.items lines hv).1]
      exact hC cart hcmem
    have hq : qtySumL lines pq.1.pid = pq.2 := qtySumL_nodup lines hnodup pq hpq
    obtain ⟨hfind, hbound⟩ := validateCart_mem db cart.items lines hv pq hpq
    have hfp : findProduct db p.pid = some p := by
      unfold findProduct
      exact find?_pid_of_mem db.products hP p hp
    have hpe : pq.1 = p := by
      rw [hpqpid] at hfind
      rw [hfind] at hfp
      exact Option.some.inj hfp
    rw [← hpqpid, hq]
    rw [hpe] at hbound
    omega
  · rw [qtySumL_eq_zero lines p.pid hin]
    have := hnn p hp
    omega

/-- Every covered transition preserves well-formedness and nonnegative
stock. -/
theorem safeStep_inv (db db' : DB) (hstep : SafeStep db db')
    (hP : ProductsWF db) (hC : CartsWF db) (hnn : StockNonneg db) :
    ProductsWF db' ∧ CartsWF db' ∧ StockNonneg db' := by
  cases hstep with
  | create user pm pl note onum pcode db' o h =>
    obtain ⟨cart, lines, hcart, hv, horder, hdb⟩ :=
      create_order_inv user pm pl note onum pcode db db' o h
    refine ⟨?_, ?_, create_stock_nonneg db db' user pm pl note onum pcode o hP hC hnn h⟩
    · refine ProductsWF_map db db' (applyLines lines) ?_ (applyLines_pid lines) hP
      rw [hdb]
      show deductLines db.products lines = _
      exact deductLines_eq_map lines db.products
    · intro c hc
      rw [hdb] at hc
      exact CartsWF_clearCartRow db.carts cart.cid hC c hc
  | gateway user pl note onum pcode db' o h =>
    obtain ⟨cart, lines, hcart, hv, horder, hdb⟩ :=
      initialize_payment_inv user pl note onum pcode db db' o h
    subst hdb
    exact ⟨hP, hC, hnn⟩
  | verify reference user ps db' r h hcov =>
    obtain ⟨hs, o, hl, hcase⟩ := verify_payment_inv reference user ps db db' r h
    rcases hcase with ⟨_, rfl, _⟩ | ⟨_, _, hdbeq, _⟩
    · exact ⟨hP, hC, hnn⟩
    · subst hdbeq
      refine ⟨?_, ?_, confirm_stock_nonneg db o _ (some user.uid) hnn (hcov o hl)⟩
      · refine ProductsWF_map db _ (applyItemsD db.products (orderItemsOf db o.oid)) ?_
          (applyItemsD_pid db.products _) hP
        rw [confirmOrder_products, deductItems_eq_map]
      · rcases confirmOrder_carts db o
          ("Payment confirmed via Paystack (ref: " ++ reference ++ ")") (some user.uid) with
          hcarts | ⟨cid, hcarts⟩
        · intro c hc
          rw [hcarts] at hc
          exact hC c hc
        · intro c hc
          rw [hcarts] at hc
          exact CartsWF_clearCartRow db.carts cid hC c hc
  | webhook pl hcov =>
    rcases handle_webhook_cases pl db with heq | ⟨o, hev, hl, hunpaid, heq⟩ <;> rw [heq]
    · exact ⟨hP, hC, hnn⟩
    · refine ⟨?_, ?_, confirm_stock_nonneg db o _ o.user_id hnn (hcov o hl)⟩
      · refine ProductsWF_map db _ (applyItemsD db.products (orderItemsOf db o.oid)) ?_
          (applyItemsD_pid db.products _) hP
        rw [confirmOrder_products, deductItems_eq_map]
      · rcases confirmOrder_carts db o
          ("Payment confirmed via webhook (ref: " ++ pl.data.reference ++ ")") o.user_id with
          hcarts | ⟨cid, hcarts⟩
        · intro c hc
          rw [hcarts] at hc
          exact hC c hc
        · intro c hc
          rw [hcarts] at hc
          exact CartsWF_clearCartRow db.carts cid hC c hc
  | cancel user order_id db' r h =>
    obtain ⟨o, hl, hst, hr, hdb⟩ := cancel_order_inv user order_id db db' r h
    refine ⟨?_, ?_, ?_⟩
    · refine ProductsWF_map db db' (applyItemsR db.products (orderItemsOf db o.oid)) ?_
        (applyItemsR_pid db.products _) hP
      rw [hdb]
      show restoreItems db.products (orderItemsOf db o.oid) = _
      exact restoreItems_eq_map _ db.products
    · intro c hc
      rw [hdb] at hc
      exact hC c hc
    · intro p' hp'
      rw [hdb] at hp'
      exact restore_stock_nonneg db o.oid _ rfl hnn p' hp'
  | advance order_id new_status note db' r h =>
    obtain ⟨o, hl, hr, hdb⟩ := update_order_status_inv order_id new_status note db db' r h
    subst hdb
    exact ⟨hP, hC, hnn⟩

/-- C3 (amended): with well-formed tables (distinct product ids, one cart
line per product) the invariant stock_quantity ≥ 0 holds in every state
reachable by order creation, gateway-payment initialization, cancellation,
administrative status update, and payment confirmation taken only when
stock still covers the confirmed order; an uncovered confirmation deducts
unconditionally and can drive stock below zero (see the counterexample
reached through initialize → create_order → verify). -/
theorem stock_nonneg_invariant (db db' : DB)
    (hreach : Relation.ReflTransGen SafeStep db db')
    (hP : ProductsWF db) (hC : CartsWF db) (hnn : StockNonneg db) :
    StockNonneg db' ∧ ProductsWF db' ∧ CartsWF db' := by
  induction hreach with
  | refl => exact ⟨hnn, hP, hC⟩
  | tail hsteps hstep ih =>
    obtain ⟨h1, h2, h3⟩ := ih
    obtain ⟨g1, g2, g3⟩ := safeStep_inv _ _ hstep h2 h3 h1
    exact ⟨g3, g1, g2⟩

/-- Witness for C3 (amended): after the gateway creation step from exDb0
stock is still nonnegative. -/
theorem stock_nonneg_invariant_witness :
    StockNonneg exDb1 ∧ ProductsWF exDb1 ∧ CartsWF exDb1 :=
  stock_nonneg_invariant exDb0 exDb1
    (Relation.ReflTransGen.single
      (SafeStep.gateway exDb0 exUser none none "N2" "222222" exDb1 exOrderN2
        initialize_payment_exDb0))
    (by decide) (by decide) (by decide)
